import Mathlib

/-!
Verification development for the POA e-mail synchronization pipeline
(`src/lib/process-emails.ts`).  The TypeScript source is shallowly embedded:
pure helpers become Lean functions; the orchestrator's effects (Gmail,
Sheets, task callbacks) are threaded through an explicit `PipeState`
record, with the external services abstracted into a `World` record of
response functions.  JavaScript `Date` values are embedded at two
granularities, matching their two uses in the source: calendar dates
(year / 0-based month / day, compared lexicographically, i.e. all dates
viewed as midnight in one time zone) for month bucketing, and integer
milliseconds-since-epoch for the audit-log watermark.  The browser's HTML
parser (`Document.parseHTMLUnsafe`) and the JS date parser are external
platform pieces; their results enter the model as data (a message carries
the parsed row structure of its body; the world carries the date parser).
-/

namespace POA

/-! ## Calendar dates and month bucketing -/

/-- A JS `Date` at calendar-day granularity: 0-based `month` as in JS
`getMonth`, `day` from `getDate` (ordering = timestamp ordering when all
dates are midnight in one frame). -/
structure SDate where
  year : Int
  month : Nat
  day : Nat
deriving DecidableEq, Repr

/-- `a <= b` on JS dates, at day granularity (lexicographic). -/
def dateLe (a b : SDate) : Prop :=
  a.year < b.year ∨ (a.year = b.year ∧ (a.month < b.month ∨ (a.month = b.month ∧ a.day ≤ b.day)))

instance (a b : SDate) : Decidable (dateLe a b) := by
  unfold dateLe; infer_instance

/-- Strict `a < b` on JS dates at day granularity. -/
def dateLt (a b : SDate) : Prop :=
  a.year < b.year ∨ (a.year = b.year ∧ (a.month < b.month ∨ (a.month = b.month ∧ a.day < b.day)))

instance (a b : SDate) : Decidable (dateLt a b) := by
  unfold dateLt; infer_instance

/-- `new Date(d.getFullYear(), d.getMonth(), 1)`. -/
def firstOfMonth (d : SDate) : SDate := ⟨d.year, d.month, 1⟩

/-- `c.setMonth(c.getMonth() + 1)` applied to a first-of-month date
(JS normalizes month 12 to January of the next year). -/
def nextMonth (c : SDate) : SDate :=
  if c.month = 11 then ⟨c.year + 1, 0, 1⟩ else ⟨c.year, c.month + 1, 1⟩

/-- Linear month index `year * 12 + month` of a date. -/
def monthIdx (d : SDate) : Int := d.year * 12 + d.month

/-- The loop body of `getMonthsBetweenDates`: `while (c <= end) { push c;
c = next month }`.  The `fuel` argument bounds the iteration count (the
source's `while` loop); `getMonthsBetweenDates` supplies enough fuel for
the loop to run to completion. -/
def monthsGo : Nat → SDate → SDate → List SDate
  | 0, _, _ => []
  | fuel + 1, c, e => if dateLe c e then c :: monthsGo fuel (nextMonth c) e else []

/-- Number of loop iterations needed: months from `c`'s month through
`e`'s month, inclusive. -/
def monthFuel (c e : SDate) : Nat := (monthIdx e + 1 - monthIdx c).toNat

/-- `getMonthsBetweenDates(start, end)`: first-of-month dates pushed while
`c <= end`, starting from the first of `start`'s month. -/
def getMonthsBetweenDates (start e : SDate) : List SDate :=
  monthsGo (monthFuel (firstOfMonth start) e) (firstOfMonth start) e

/-- English month names, 0-based as in JS `getMonth`. -/
def monthName (m : Nat) : String :=
  [ "January", "February", "March", "April", "May", "June", "July",
    "August", "September", "October", "November", "December" ].getD m ""

/-- `date.toLocaleString('en-US', {month:'long', year:'numeric'})
.replace(' ', ' - ')`: the locale string "July 2025" has exactly one
space, which the replace turns into " - ". -/
def formatMonthYear (d : SDate) : String :=
  monthName d.month ++ " - " ++ toString d.year

/-! Spec-side formulation for claim C5 (written from the specification's
words, to be compared with `getMonthsBetweenDates`): the inclusive,
chronologically ordered sequence of first-of-month dates from one month
index through another. -/

/-- The first-of-month date with the given linear month index (`%` and
`/` are euclidean, which for the positive modulus 12 is floor
division as JS calendar arithmetic needs). -/
def monthOfIdx (i : Int) : SDate := ⟨i / 12, (i % 12).toNat, 1⟩

/-- Modelled from the spec: "the inclusive, chronologically ordered
sequence of first-of-month dates from start's month through end's month":
month indices `lo, lo+1, ..., hi` rendered as first-of-month dates. -/
def specMonthSeq (lo hi : Int) : List SDate :=
  (List.range (hi + 1 - lo).toNat).map (fun i : Nat => monthOfIdx (lo + (i : Int)))

/-! ## Record extraction from the e-mail body -/

/-- The eight extracted activity fields (the `htmlString` mirror of the raw
body is dropped by `parseEmailBody` and not modelled). -/
structure ActivityDetails where
  title : String
  organization : String
  startDate : String
  endDate : String
  description : String
  time : String
  venue : String
  type_ : String
deriving DecidableEq, Repr

/-- The `Partial<ActivityDetails>` accumulator of
`parseActivityDetailsFromHtml`. -/
structure PartialDetails where
  title : Option String
  organization : Option String
  startDate : Option String
  endDate : Option String
  description : Option String
  time : Option String
  venue : Option String
  type_ : Option String
deriving DecidableEq, Repr

/-- The empty accumulator `{}`. -/
def emptyDetails : PartialDetails := ⟨none, none, none, none, none, none, none, none⟩

/-- One `<tr>` of the `.response-items` table: the `textContent` of its
`<td>` cells, in order (the output of the browser's DOM parse, which is an
external platform piece). -/
abbrev DomRow := List String

/-- JS whitespace for `String.prototype.trim` (the ASCII part; the model
never feeds exotic whitespace). -/
def jsWhitespace (c : Char) : Bool :=
  c = ' ' || c = '\t' || c = '\n' || c = '\r' || c = '\x0b' || c = '\x0c'

/-- `s.trim()`, embedded at character level so that concrete runs reduce
in the kernel. -/
def jsTrim (s : String) : String :=
  String.mk (((s.data.dropWhile jsWhitespace).reverse.dropWhile jsWhitespace).reverse)

/-- `s.toLowerCase()` at character level. -/
def jsToLower (s : String) : String := String.mk (s.data.map Char.toLower)

/-- Character-list implementation of `s.startsWith(pre)`. -/
def charsStart : List Char → List Char → Bool
  | [], _ => true
  | _ :: _, [] => false
  | a :: as, b :: bs => a = b && charsStart as bs

/-- `s.startsWith(pre)` at character level. -/
def jsStartsWith (s pre : String) : Bool := charsStart pre.data s.data

def labelTitle : String := "Title of Activity:"
def labelOrganization : String := "Name of Organization:"
def labelStartDate : String := "Start Date of Implementation:"
def labelEndDate : String := "End Date of Implementation:"
def labelDescription : String := "Rationale/Brief Description:"
def labelTime : String := "Time of Implementation:"
def labelVenue : String := "Venue/Platform:"
def labelType : String := "Type of Implementation (Online -Social Media Posting; Google Meet; Zoom etc)/Face to Face:"

/-- The `rows.forEach` body: rows with at least two cells have their
trimmed first cell matched against the `keyMap` labels; a hit stores the
trimmed second cell under the mapped field. -/
def applyRow (d : PartialDetails) (row : DomRow) : PartialDetails :=
  match row with
  | c0 :: c1 :: _ =>
      let label := jsTrim c0
      let value := jsTrim c1
      if label = labelTitle then { d with title := some value }
      else if label = labelOrganization then { d with organization := some value }
      else if label = labelStartDate then { d with startDate := some value }
      else if label = labelEndDate then { d with endDate := some value }
      else if label = labelDescription then { d with description := some value }
      else if label = labelTime then { d with time := some value }
      else if label = labelVenue then { d with venue := some value }
      else if label = labelType then { d with type_ := some value }
      else d
  | _ => d

/-- `parseActivityDetailsFromHtml`: the DOM parse result is `none` when
`Document.parseHTMLUnsafe` throws (the `catch` returns the accumulator as
it stood, i.e. empty), otherwise the labelled rows are folded into the
accumulator. -/
def parseActivityDetailsFromHtml (dom : Option (List DomRow)) : PartialDetails :=
  match dom with
  | none => emptyDetails
  | some rows => rows.foldl applyRow emptyDetails

/-- JS `x || dflt` on an optional string field: `undefined` and the empty
string are falsy. -/
def jsOr (v : Option String) (dflt : String) : String :=
  match v with
  | some s => if s = "" then dflt else s
  | none => dflt

/-- The fixed sentinel for unextractable fields. -/
def sentinel : String := "Not Found"

/-- `parseEmailBody`: every field degrades to the sentinel. -/
def parseEmailBody (dom : Option (List DomRow)) : ActivityDetails :=
  let details := parseActivityDetailsFromHtml dom
  { title := jsOr details.title sentinel
    organization := jsOr details.organization sentinel
    startDate := jsOr details.startDate sentinel
    endDate := jsOr details.endDate sentinel
    description := jsOr details.description sentinel
    time := jsOr details.time sentinel
    venue := jsOr details.venue sentinel
    type_ := jsOr details.type_ sentinel }

/-! Spec-side formulation for claim C9: the value a field should hold
according to the specification — the trimmed right cell of the last
labelled row that matched, with unmatched or empty degrading to the
sentinel. -/

/-- The trimmed value cell of a row, when the row has ≥ 2 cells and its
trimmed label cell equals `label`. -/
def rowMatch (label : String) (row : DomRow) : Option String :=
  match row with
  | c0 :: c1 :: _ => if jsTrim c0 = label then some (jsTrim c1) else none
  | _ => none

/-- Modelled from the spec: the last matched value for a label in the
labelled-table region. -/
def lastLabelled (rows : List DomRow) (label : String) : Option String :=
  (rows.filterMap (rowMatch label)).getLast?

/-- Modelled from the spec: "each field whose label was matched holds the
trimmed cell text, and every unmatched or empty field holds the fixed
sentinel". -/
def specField (rows : List DomRow) (label : String) : String :=
  match lastLabelled rows label with
  | some v => if v = "" then sentinel else v
  | none => sentinel

/-! ## Cell values and Sheets requests -/

/-- A JS value appearing in a `rowData` array. -/
inductive JSVal where
  | vstr (s : String)
  | vnull
  | vformula (f : String)
  | vhyperlink (url : String) (text : Option String)
deriving DecidableEq, Repr

/-- A `userEnteredValue`: either a `stringValue` or a `formulaValue`. -/
inductive CellValue where
  | strV (s : String)
  | formulaV (f : String)
deriving DecidableEq, Repr

/-- `.replace(/"/g, '""')`: double every double-quote character. -/
def escQuotes (s : String) : String :=
  String.mk (s.data.flatMap (fun c => if c = '"' then ['"', '"'] else [c]))

/-- `/^https?:\/\//i.test(s)`. -/
def isHttpUrl (s : String) : Bool :=
  jsStartsWith (jsToLower s) "http://" || jsStartsWith (jsToLower s) "https://"

/-- JS `String(val ?? '')` for the fallback branch of the cell encoder:
an object stringifies to `"[object Object]"`. -/
def jsStringOf : JSVal → String
  | .vstr s => s
  | .vnull => ""
  | .vformula _ => "[object Object]"
  | .vhyperlink _ _ => "[object Object]"

/-- The per-cell encoder inside `generateRowRequests` (`rowData.map`):
explicit formulas pass through; `{hyperlink: {url, text?}}` with a truthy
url becomes a `=HYPERLINK(...)` formula with both parts quote-escaped;
a URL string in column 9 becomes a `PDF LINK` hyperlink formula;
everything else becomes `String(val ?? '')`. -/
def encodeCell (idx : Nat) (v : JSVal) : CellValue :=
  match v with
  | .vformula f => .formulaV f
  | .vhyperlink url text =>
      if url ≠ "" then
        .formulaV ("=HYPERLINK(\"" ++ escQuotes url ++ "\",\"" ++ escQuotes (text.getD url) ++ "\")")
      else .strV (jsStringOf (.vhyperlink url text))
  | .vstr s =>
      if idx = 9 ∧ isHttpUrl s then
        .formulaV ("=HYPERLINK(\"" ++ escQuotes s ++ "\",\"PDF LINK\")")
      else .strV s
  | .vnull => .strV ""

/-- The `values` array of the row's `updateCells` request. -/
def encodeRow (rowData : List JSVal) : List CellValue :=
  rowData.enum.map (fun p => encodeCell p.1 p.2)

/-- A request in a `spreadsheets.batchUpdate` body.  Formatting-only
requests keep their identifying fields but no claim depends on their
payloads. -/
inductive SheetRequest where
  | updateCells (sheetId rowIndex : Nat) (values : List CellValue)
  | appendDimension (sheetId length : Nat)
  | updateDimensionProps (sheetId : Nat)
  | repeatCellFmt (sheetId rowStart : Nat)
  | setDataValidation (sheetId rowStart : Nat)
  | addConditionalFormat (sheetId rowStart : Nat) (text : String)
  | updateSheetProps (sheetId : Nat)
deriving DecidableEq, Repr

/-- Keys of `CONDITIONAL_FORMAT_RULES`, in insertion order. -/
def CONDITIONAL_FORMAT_KEYS : List String := ["UNSET", "SPIN", "SCRO", "PROF"]

/-- `generateRowRequests(sheetId, rowIndex, rowData)`: the row's cell
write followed by its formatting, validation and conditional-format
requests. -/
def generateRowRequests (sheetId rowIndex : Nat) (rowData : List JSVal) : List SheetRequest :=
  [ .updateCells sheetId rowIndex (encodeRow rowData),
    .updateDimensionProps sheetId,
    .repeatCellFmt sheetId rowIndex,
    .repeatCellFmt sheetId rowIndex,
    .setDataValidation sheetId rowIndex ]
  ++ CONDITIONAL_FORMAT_KEYS.map (fun t => .addConditionalFormat sheetId rowIndex t)

def LOG_SHEET_NAME : String := "POA Log"

def MONTHLY_HEADERS : List String :=
  [ "Categories", "Name Of Organization", "Title Of Activity", "Description",
    "Start Date Of Implementation", "End Date Of Implementation", "Time",
    "Venue", "Type Of Activity", "Link Of Approved POA", "Narrative Report" ]

def LOG_HEADERS : List String :=
  ["Timestamp", "Message ID", "Status", "Organization", "Title"]

/-- `generateHeaderRequests(sheetId, headers)`: header data, header style,
frozen row, and (for monthly sheets) the seven column-width presets. -/
def generateHeaderRequests (sheetId : Nat) (headers : List String) : List SheetRequest :=
  [ .updateCells sheetId 0 (headers.map .strV),
    .repeatCellFmt sheetId 0,
    .updateSheetProps sheetId ]
  ++ (if headers = MONTHLY_HEADERS then
        List.replicate 7 (.updateDimensionProps sheetId)
      else [])

/-! ## The spreadsheet (external tabular store) -/

/-- One sheet (destination bucket) of the spreadsheet: its title, numeric
id, and data rows.  `rows.length` is what a `values.get` on `A:A`
reports, since every written row has a non-empty first cell. -/
structure SheetT where
  title : String
  sheetId : Nat
  rows : List (List CellValue)
deriving DecidableEq, Repr

abbrev Spreadsheet := List SheetT

/-- Lookup a sheet by title (`existingSheets` keyed by `properties.title`). -/
def findSheet (ss : Spreadsheet) (title : String) : Option SheetT :=
  ss.find? (fun sh => sh.title = title)

/-- The rendered text of a cell as `values.get` returns it (audit-log
cells are always plain strings). -/
def cellText : CellValue → String
  | .strV s => s
  | .formulaV f => f

/-- Set row `i` of a row list, padding with empty rows when writing past
the end (the grid was extended by `appendDimension` first). -/
def setRowAt (rows : List (List CellValue)) (i : Nat) (v : List CellValue) : List (List CellValue) :=
  if i < rows.length then rows.set i v
  else rows ++ List.replicate (i - rows.length) [] ++ [v]

/-- Apply one batch-update request to the spreadsheet; only `updateCells`
changes cell data, the rest are formatting/grid-shape requests. -/
def applyRequest (ss : Spreadsheet) : SheetRequest → Spreadsheet
  | .updateCells sid rowIndex values =>
      ss.map (fun sh => if sh.sheetId = sid then { sh with rows := setRowAt sh.rows rowIndex values } else sh)
  | _ => ss

def applyRequests (ss : Spreadsheet) (reqs : List SheetRequest) : Spreadsheet :=
  reqs.foldl applyRequest ss

/-- A fresh sheet id for an `addSheet` reply. -/
def freshId (ss : Spreadsheet) : Nat :=
  (ss.map (fun sh => sh.sheetId)).foldr max 0 + 1

/-- `addSheet` for each title in order, collecting the created sheets
(the `replies` the source reads titles and ids back from). -/
def createSheets (ss : Spreadsheet) (titles : List String) : Spreadsheet × List SheetT :=
  titles.foldl
    (fun acc t =>
      let sh : SheetT := ⟨t, freshId acc.1, []⟩
      (acc.1 ++ [sh], acc.2 ++ [sh]))
    (ss, [])

/-- `values.append` on a sheet addressed by name: rows are appended after
the current data. -/
def appendToSheet (ss : Spreadsheet) (title : String) (newRows : List (List CellValue)) : Spreadsheet :=
  ss.map (fun sh => if sh.title = title then { sh with rows := sh.rows ++ newRows } else sh)

/-! ## Task state (host callback interface) -/

inductive TStatus where
  | queued | fetching | parsing | uploading_pdf | building_request
  | writing | done | skipped | held | error
deriving DecidableEq, Repr

structure TaskRec where
  subject : String
  status : TStatus
  errMsg : Option String
deriving DecidableEq, Repr

/-- The mutable pipeline state: the host's task list, the narration
stream, and the durable spreadsheet. -/
structure PipeState where
  tasks : List (String × TaskRec)
  statuses : List String
  ss : Spreadsheet
deriving Repr

/-- `callbacks.status(msg)`. -/
def pushStatus (st : PipeState) (msg : String) : PipeState :=
  { st with statuses := st.statuses ++ [msg] }

/-- `callbacks.updateTask(id, patch)` with the patch's defined fields. -/
def updateTask (st : PipeState) (id : String)
    (subject : Option String) (status : Option TStatus) (errMsg : Option (Option String)) : PipeState :=
  { st with tasks := st.tasks.map (fun p =>
      if p.1 = id then
        (p.1, { subject := subject.getD p.2.subject
                status := status.getD p.2.status
                errMsg := errMsg.getD p.2.errMsg })
      else p) }

/-- `callbacks.updateTasksBulk(ids, {status})`. -/
def updateTasksBulk (st : PipeState) (ids : List String) (status : TStatus) : PipeState :=
  { st with tasks := st.tasks.map (fun p =>
      if p.1 ∈ ids then (p.1, { p.2 with status := status }) else p) }

/-- `callbacks.queue(tasks)`: replaces the whole task list. -/
def queueTasks (st : PipeState) (ids : List String) : PipeState :=
  { st with tasks := ids.map (fun id => (id, ⟨"In queue...", .queued, none⟩)) }

/-! ## Fetching and parsing one message -/

/-- A Gmail message as the pipeline sees it: its headers, the HTML body
string extracted by `getEmailBodyHtml` (empty when absent), and the
browser's DOM parse of that body (`none` when the parser throws). -/
structure Msg where
  headers : List (String × String)
  html : String
  dom : Option (List DomRow)

/-- The external services: Gmail message fetch (`Except` for a thrown
per-id failure), the JS date parser at day granularity (used on the raw
start/end strings), the JS date parser to epoch milliseconds (used on
audit-log timestamps), the black-box document-link builder, and the Gmail
search returning pages of message ids for a query (each page is the
response to a `maxResults: 500` list call; a next-page token exists while
pages remain). -/
structure World where
  getMsg : String → Except String Msg
  parseDateD : String → Option SDate
  parseDateMs : String → Option Int
  buildPdfLink : String → String
  gmailPages : String → List (List String)

/-- `h.name.toLowerCase() === name` header lookup; `none` when absent. -/
def findHeader (headers : List (String × String)) (name : String) : Option String :=
  (headers.find? (fun p => jsToLower p.1 = name)).map (fun p => p.2)

/-- `parseDateNoInference`: sentinel or falsy input gives `null`, else the
JS date parse (invalid gives `null`). -/
def parseDateNoInference (w : World) (dateString : String) : Option SDate :=
  if dateString = "" ∨ dateString = sentinel then none else w.parseDateD dateString

/-- The success payload of a parsed message. -/
structure SuccessData where
  messageId : String
  subject : String
  parsedData : ActivityDetails
  monthSheetNames : List String
  rowData : List JSVal
  date : Option String
deriving Repr

inductive ParsedResult where
  | success (data : SuccessData)
  | held (messageId subject reason : String) (parsedData : ActivityDetails) (date : Option String)
  | error (messageId errMsg : String)
deriving Repr

/-- The tag of a `ParsedResult` (`status` discriminant of the union). -/
def statusOf : ParsedResult → String
  | .success _ => "success"
  | .held _ _ _ _ _ => "held"
  | .error _ _ => "error"

/-- `[!startDate ? 'Start Date' : null, !endDate ? 'End Date' : null]
.filter(Boolean).join(' & ')`. -/
def missingNames (startNone endNone : Bool) : String :=
  match startNone, endNone with
  | true, true => "Start Date & End Date"
  | true, false => "Start Date"
  | false, true => "End Date"
  | false, false => ""

/-- `fetchAndParseEmail`: fetch, extract headers, parse the body, check
the organization/title guard, strictly parse the dates (holding on
failure), bucket the months and build the row. -/
def fetchAndParseEmail (w : World) (st : PipeState) (messageId : String) : PipeState × ParsedResult :=
  let st := updateTask st messageId none (some .fetching) none
  match w.getMsg messageId with
  | .error e =>
      (updateTask st messageId none (some .error) (some (some e)), .error messageId e)
  | .ok msg =>
      let date := findHeader msg.headers "date"
      let subject := (findHeader msg.headers "subject").getD "No Subject"
      let st := updateTask st messageId (some subject) (some .parsing) none
      if msg.html = "" then
        (updateTask st messageId none (some .error) (some (some "HTML body not found.")),
         .error messageId "HTML body not found.")
      else
        let parsedData := parseEmailBody msg.dom
        if parsedData.organization = "" ∨ parsedData.title = "" then
          (updateTask st messageId none (some .error) (some (some "Missing organization or title in email body.")),
           .error messageId "Missing organization or title in email body.")
        else
          let startDate := parseDateNoInference w parsedData.startDate
          let endDate := parseDateNoInference w parsedData.endDate
          match startDate, endDate with
          | some sd, some ed =>
              let monthSheetNames := (getMonthsBetweenDates sd ed).map formatMonthYear
              let pdfLink := w.buildPdfLink msg.html
              let rowData : List JSVal :=
                [ .vstr "UNSET", .vstr parsedData.organization, .vstr parsedData.title,
                  .vstr parsedData.description, .vstr parsedData.startDate,
                  .vstr parsedData.endDate, .vstr parsedData.time, .vstr parsedData.venue,
                  .vstr parsedData.type_, .vhyperlink pdfLink (some "PDF LINK"), .vstr "" ]
              (st, .success ⟨messageId, subject, parsedData, monthSheetNames, rowData, date⟩)
          | sd, ed =>
              let missing := missingNames sd.isNone ed.isNone
              let st := updateTask st messageId none (some .held) (some (some (missing ++ " need review")))
              (st, .held messageId subject (missing ++ " missing or invalid") parsedData date)

/-! ## Batch planner -/

/-- Association-list lookup (JS `Map.get`, first — and only — binding). -/
def alookup {α : Type} : List (String × α) → String → Option α
  | [], _ => none
  | (k, v) :: rest, key => if k = key then some v else alookup rest key

/-- `if (!dataBySheet.has(name)) dataBySheet.set(name, []);
dataBySheet.get(name)!.push(row)` — insertion-ordered map update. -/
def pushRow (groups : List (String × List (List JSVal))) (name : String) (row : List JSVal) :
    List (String × List (List JSVal)) :=
  match alookup groups name with
  | some _ => groups.map (fun p => if p.1 = name then (p.1, p.2 ++ [row]) else p)
  | none => groups ++ [(name, [row])]

/-- `dataBySheet`: successful results grouped by destination sheet, in
iteration order. -/
def routeBySheet (successes : List SuccessData) : List (String × List (List JSVal)) :=
  successes.foldl
    (fun g r => r.monthSheetNames.foldl (fun g' name => pushRow g' name r.rowData) g)
    []

/-- `neededSheetNames`: the log sheet plus every touched month, in
first-seen order (a JS `Set` preserves insertion order). -/
def neededNames (successes : List SuccessData) : List String :=
  successes.foldl
    (fun acc r => r.monthSheetNames.foldl (fun a n => if n ∈ a then a else a ++ [n]) acc)
    [LOG_SHEET_NAME]

/-- `sheetState`: for each needed sheet present in the spreadsheet, its id
and its current `A:A` row count — read fresh from `ss`, the spreadsheet as
it stands after this batch's provisioning. -/
def computeSheetState (ss : Spreadsheet) (needed : List String) : List (String × Nat × Nat) :=
  needed.filterMap (fun n => (findSheet ss n).map (fun sh => (n, sh.sheetId, sh.rows.length)))

/-- The mutation requests one routed sheet contributes to the
`masterRequest`: sheets missing from the state are skipped (`continue`),
otherwise one `appendDimension` by the number of routed rows is followed
by the row requests at consecutive offsets starting at the sheet's
current row count. -/
def sheetGroupRequests (state : List (String × Nat × Nat))
    (g : String × List (List JSVal)) : List SheetRequest :=
  match alookup state g.1 with
  | none => []
  | some (sid, lastRow) =>
      SheetRequest.appendDimension sid g.2.length ::
        (g.2.enum.map (fun p => generateRowRequests sid (lastRow + p.1) p.2)).flatten

/-- The `masterRequest` of one macro-batch. -/
def buildMasterRequest (groups : List (String × List (List JSVal)))
    (state : List (String × Nat × Nat)) : List SheetRequest :=
  (groups.map (sheetGroupRequests state)).flatten

/-- The `updateCells` writes a batch issues against one sheet id, in
order: `(rowIndex, values)` pairs. -/
def updateCellsOf (reqs : List SheetRequest) (sid : Nat) : List (Nat × List CellValue) :=
  reqs.filterMap (fun r =>
    match r with
    | .updateCells s rowIndex values => if s = sid then some (rowIndex, values) else none
    | _ => none)

/-- Split a list into chunks of `n` (the macro-batch slicing and the
intra-batch concurrency chunks). -/
def chunksGo {α : Type} (n : Nat) : Nat → List α → List (List α)
  | 0, _ => []
  | _, [] => []
  | fuel + 1, xs => xs.take n :: chunksGo n fuel (xs.drop n)

def chunks {α : Type} (n : Nat) (xs : List α) : List (List α) :=
  chunksGo n xs.length xs

/-- Provisioning: create the missing needed sheets, then apply their
header/styling requests (log sheets get `LOG_HEADERS`, monthly sheets
`MONTHLY_HEADERS`). -/
def provisionSheets (ss : Spreadsheet) (needed : List String) : Spreadsheet :=
  let toCreate := needed.filter (fun n => (findSheet ss n).isNone)
  let created := createSheets ss toCreate
  let headerRequests := (created.2.map (fun sh =>
    generateHeaderRequests sh.sheetId
      (if sh.title = LOG_SHEET_NAME then LOG_HEADERS else MONTHLY_HEADERS))).flatten
  applyRequests created.1 headerRequests

/-- The audit-log rows appended by one batch: one row per success
(`Processed`) then one per held (`Held (dates needed)`); a `null` sent
date appends as an empty cell. -/
def batchLogRows (successes : List SuccessData)
    (helds : List (String × String × String × ActivityDetails × Option String)) :
    List (List CellValue) :=
  successes.map (fun r =>
    [ .strV (r.date.getD ""), .strV r.messageId, .strV "Processed",
      .strV r.parsedData.organization, .strV r.parsedData.title ])
  ++ helds.map (fun h =>
    [ .strV (h.2.2.2.2.getD ""), .strV h.1, .strV "Held (dates needed)",
      .strV h.2.2.2.1.organization, .strV h.2.2.2.1.title ])

/-- The held results of a parse pass, with their payloads. -/
def heldOf (results : List ParsedResult) :
    List (String × String × String × ActivityDetails × Option String) :=
  results.filterMap (fun r =>
    match r with
    | .held m s reason p d => some (m, s, reason, p, d)
    | _ => none)

def successOf (results : List ParsedResult) : List SuccessData :=
  results.filterMap (fun r => match r with | .success d => some d | _ => none)

/-- One macro-batch: bounded-concurrency fetch+parse (chunks of 5),
classification, routing, provisioning, the fresh sheet-state read, the
single atomic mutation set, the audit-log append, and the task updates.
Returns the new state and the number of successes. -/
def runBatch (w : World) (st : PipeState) (batchIds : List String) : PipeState × Nat :=
  let fetched := (chunks 5 batchIds).foldl
    (fun acc chunk =>
      chunk.foldl (fun a id =>
        let r := fetchAndParseEmail w a.1 id
        (r.1, a.2 ++ [r.2])) acc)
    (st, ([] : List ParsedResult))
  let st := fetched.1
  let parsedResults := fetched.2
  let successfulResults := successOf parsedResults
  let heldResults := heldOf parsedResults
  let successfulIds := successfulResults.map (fun r => r.messageId)
  let heldIds := heldResults.map (fun h => h.1)
  let st := updateTasksBulk st successfulIds .building_request
  let st := if heldIds.isEmpty then st else updateTasksBulk st heldIds .held
  let groups := routeBySheet successfulResults
  let needed := neededNames successfulResults
  let ss1 := provisionSheets st.ss needed
  let state := computeSheetState ss1 needed
  let masterRequest := buildMasterRequest groups state
  let st := { st with ss := ss1 }
  let st :=
    if masterRequest.isEmpty then st
    else
      let st := updateTasksBulk st successfulIds .writing
      { st with ss := applyRequests st.ss masterRequest }
  let logRows := batchLogRows successfulResults heldResults
  let st :=
    if logRows.isEmpty then st
    else { st with ss := appendToSheet st.ss LOG_SHEET_NAME logRows }
  let st := updateTasksBulk st successfulIds .done
  (st, successfulResults.length)

/-! ## Incremental cursor and message discovery -/

/-- The fixed query scaffold: sender plus the two required quoted
phrases. -/
def baseQuery (senderEmail : String) : String :=
  "from:" ++ senderEmail ++ " \"POA\" \"The request is now complete.\""

/-- The `A2:B` view of the audit log: (timestamp text, message id text)
per data row. -/
def logView (sh : SheetT) : List (String × String) :=
  (sh.rows.drop 1).map (fun r => (cellText (r.getD 0 (.strV "")), cellText (r.getD 1 (.strV ""))))

/-- One step of the `reduce` computing the latest log timestamp: truthy,
parseable cells only; a strictly greater candidate replaces the
accumulator. -/
def maxTsStep (w : World) (acc : Option Int) (p : String × String) : Option Int :=
  if p.1 = "" then acc
  else
    match w.parseDateMs p.1 with
    | none => acc
    | some t =>
        match acc with
        | none => some t
        | some l => if t > l then some t else some l

/-- The `reduce` over the log's timestamp column. -/
def maxTsGo (w : World) (rows : List (String × String)) (latest : Option Int) : Option Int :=
  rows.foldl (maxTsStep w) latest

/-- The dedup set: truthy Message ID cells of the log. -/
def loggedIds (rows : List (String × String)) : List String :=
  rows.filterMap (fun p => if p.2 = "" then none else some p.2)

def MAX_MESSAGES : Nat := 1000

def BATCH_SIZE : Nat := 10

/-- The pagination loop: per page, drop ids already in the dedup set,
append, report the running total, stop on the cap (checked after the
append) or on an exhausted token. -/
def fetchPages (seen : List String) : List (List String) → List String → List String × List String
  | [], acc => (acc, [])
  | page :: rest, acc =>
      let acc' := acc ++ page.filter (fun id => id ∉ seen)
      let msg := "Fetched " ++ toString acc'.length ++ " candidate emails..."
      if MAX_MESSAGES ≤ acc'.length then
        (acc', [msg, "Reached max limit of " ++ toString MAX_MESSAGES ++ " emails; stopping pagination."])
      else
        let r := fetchPages seen rest acc'
        (r.1, msg :: r.2)

/-- Phase 1 of `processEmails`: resolve the query filter and the dedup
set.  A manual start date (valid or not) takes the first branch and skips
the log read entirely; otherwise, with the date filter on, the log is read
for the watermark and the dedup ids, a missing log sheet falling back to
an unfiltered query. -/
def cursorPhase (w : World) (ss : Spreadsheet) (senderEmail : String)
    (manualStartDate : Option String) (useDateFilter : Bool) : String × List String :=
  match manualStartDate with
  | some s =>
      (match w.parseDateMs (s ++ "T00:00:00") with
       | some ms => (baseQuery senderEmail ++ " after:" ++ toString (ms.fdiv 1000), [])
       | none => (baseQuery senderEmail, []))
  | none =>
      if useDateFilter then
        match findSheet ss LOG_SHEET_NAME with
        | some sh =>
            let rows := logView sh
            let q :=
              match maxTsGo w rows none with
              | some m => baseQuery senderEmail ++ " after:" ++ toString (m.fdiv 1000)
              | none => baseQuery senderEmail
            (q, loggedIds rows)
        | none => (baseQuery senderEmail, [])
      else (baseQuery senderEmail, [])

/-- The candidate ids a run fetches: the cursor phase followed by the
paginated, deduplicated, capped discovery. -/
def candidatesOf (w : World) (ss : Spreadsheet) (senderEmail : String)
    (manualStartDate : Option String) (useDateFilter : Bool) : List String :=
  let c := cursorPhase w ss senderEmail manualStartDate useDateFilter
  (fetchPages c.2 (w.gmailPages c.1) []).1

structure RunResult where
  processed : Nat
  candidates : List String
  st : PipeState
deriving Repr

/-- `processEmails`: cursor, discovery, oldest-first reversal, queueing,
sequential macro-batches of 10, and the final held-item summary pass. -/
def processEmails (w : World) (ss0 : Spreadsheet) (senderEmail : String)
    (manualStartDate : Option String) (useDateFilter : Bool) : RunResult :=
  let st0 : PipeState := ⟨[], [], ss0⟩
  let cur := cursorPhase w ss0 senderEmail manualStartDate useDateFilter
  let paged := fetchPages cur.2 (w.gmailPages cur.1) []
  let st0 := { st0 with statuses := st0.statuses ++ paged.2 }
  let allMessages := paged.1
  if allMessages.isEmpty then
    ⟨0, allMessages, pushStatus st0 "No new emails to process."⟩
  else
    let ordered := allMessages.reverse
    let st := queueTasks st0 ordered
    let batches := chunks BATCH_SIZE ordered
    let final := batches.foldl
      (fun acc batch =>
        let r := runBatch w acc.1 batch
        (r.1, acc.2 + r.2))
      (st, 0)
    let st := final.1
    let st :=
      match findSheet st.ss LOG_SHEET_NAME with
      | some sh =>
          let heldNow := (sh.rows.drop 1).filter
            (fun r => jsStartsWith (jsToLower (cellText (r.getD 2 (.strV "")))) "held")
          if heldNow.isEmpty then st
          else pushStatus st "Action needed: Some items are on hold due to missing/invalid dates."
      | none => st
    ⟨final.2, allMessages, st⟩

/-! Spec-side formulations for claim C3 (written from the specification's
words, to be compared with `cursorPhase`). -/

/-- Modelled from the spec: "the maximum timestamp present in the audit
log" — the maximum of the parseable, non-empty timestamp cells. -/
def specMaxTs (w : World) (rows : List (String × String)) : Option Int :=
  (rows.filterMap (fun p => if p.1 = "" then none else w.parseDateMs p.1)).max?

/-- Modelled from the spec: the resolved lower bound, in whole unix
seconds — "explicit manual start date > log-derived watermark (max
existing log timestamp, floored to whole unix seconds) > unfiltered". -/
def specLowerBound (w : World) (ss : Spreadsheet)
    (manualStartDate : Option String) (useDateFilter : Bool) : Option Int :=
  match manualStartDate with
  | some s => (w.parseDateMs (s ++ "T00:00:00")).map (fun ms => ms.fdiv 1000)
  | none =>
      if useDateFilter then
        match findSheet ss LOG_SHEET_NAME with
        | some sh => (specMaxTs w (logView sh)).map (fun ms => ms.fdiv 1000)
        | none => none
      else none

/-- Render the resolved lower bound as the single appended
`after:<unixSeconds>` term (empty when unfiltered). -/
def renderAfter : Option Int → String
  | some u => " after:" ++ toString u
  | none => ""

/-- The manual start date, when given, parses (`yyyy-mm-dd` as the field
is documented). -/
def manualOk (w : World) : Option String → Bool
  | none => true
  | some s => (w.parseDateMs (s ++ "T00:00:00")).isSome

/-- Merge of optional maxima. -/
def omax : Option Int → Option Int → Option Int
  | none, b => b
  | some a, none => some a
  | some a, some b => some (max a b)

/-- Task-status counting for run-level statements. -/
def countStatus (tasks : List (String × TaskRec)) (s : TStatus) : Nat :=
  tasks.countP (fun p => decide (p.2.status = s))

/-- The eight extracted fields, for field-uniform statements about the
record extractor. -/
inductive Field where
  | title | organization | startDate | endDate | description | time | venue | type_
deriving DecidableEq, Repr

/-- The `keyMap` label of a field. -/
def labelOfField : Field → String
  | .title => labelTitle
  | .organization => labelOrganization
  | .startDate => labelStartDate
  | .endDate => labelEndDate
  | .description => labelDescription
  | .time => labelTime
  | .venue => labelVenue
  | .type_ => labelType

/-- Field projection of the extracted record. -/
def getAD (a : ActivityDetails) : Field → String
  | .title => a.title
  | .organization => a.organization
  | .startDate => a.startDate
  | .endDate => a.endDate
  | .description => a.description
  | .time => a.time
  | .venue => a.venue
  | .type_ => a.type_

/-- Field projection of the partial accumulator. -/
def getPD (d : PartialDetails) : Field → Option String
  | .title => d.title
  | .organization => d.organization
  | .startDate => d.startDate
  | .endDate => d.endDate
  | .description => d.description
  | .time => d.time
  | .venue => d.venue
  | .type_ => d.type_

/-! ## Concrete fixtures for witnesses, counterexamples and evaluations -/

/-- The audit-log sheet of a small fixture spreadsheet: header plus one
entry for message `m1` (timestamp `2025-06-01T10:00:00Z`). -/
def fixLogSheet : SheetT :=
  ⟨LOG_SHEET_NAME, 1,
    [ [.strV "Timestamp", .strV "Message ID", .strV "Status", .strV "Organization", .strV "Title"],
      [.strV "2025-06-01T10:00:00Z", .strV "m1", .strV "Processed", .strV "OrgA", .strV "ActA"] ]⟩

def fixSS3 : Spreadsheet := [fixLogSheet]

/-- World for the C3 witness: the only parseable log timestamp is
`2025-06-01T10:00:00Z`, at 1748772000999 ms (so flooring matters). -/
def fixW3 : World :=
  ⟨fun _ => .error "offline",
   fun _ => none,
   fun s => if s = "2025-06-01T10:00:00Z" then some 1748772000999 else none,
   fun _ => "",
   fun _ => []⟩

/-- World for the C2 counterexample: a valid manual start date parses,
and Gmail returns the already-logged id `m1` for any query. -/
def fixW2 : World :=
  ⟨fun _ => .error "offline",
   fun _ => none,
   fun s => if s = "2025-01-01T00:00:00" then some 1735689600000 else none,
   fun _ => "",
   fun _ => [["m1"]]⟩

/-- Pages for the C8 counterexample: 500, 499 and 2 fresh ids — the cap
check runs only after a whole page is appended, so the candidate list
reaches 1001. -/
def cexPages : List (List String) :=
  [ (List.range 500).map (fun i => "a" ++ toString i),
    (List.range 499).map (fun i => "b" ++ toString i),
    ["c0", "c1"] ]

/-! Fixtures for the C1 witness: two successful records routed to the
same monthly bucket of a spreadsheet whose bucket already holds 4 rows. -/

def fixAct : ActivityDetails := ⟨"ActT", "OrgT", "s", "e", "d", "t", "v", "ty"⟩

def fixRow1 : List JSVal := [.vstr "r1"]

def fixRow2 : List JSVal := [.vstr "r2"]

def fixSucc1 : SuccessData := ⟨"e1", "S1", fixAct, ["July - 2025"], fixRow1, some "d1"⟩

def fixSucc2 : SuccessData := ⟨"e2", "S2", fixAct, ["July - 2025"], fixRow2, some "d2"⟩

def fixJulySheet : SheetT :=
  ⟨"July - 2025", 7,
    [[.strV "Categories"], [.strV "UNSET"], [.strV "UNSET"], [.strV "UNSET"]]⟩

def fixSS1 : Spreadsheet := [fixLogSheet, fixJulySheet]

/-! Fixtures for C4 and C6: concrete messages as the pipeline sees them.
The DOM rows carry the labelled table of the templated e-mail body. -/

def fixDomValid : List DomRow :=
  [ ["Name of Organization:", "Org"], ["Title of Activity:", "Act"],
    ["Start Date of Implementation:", "July 1, 2025"],
    ["End Date of Implementation:", "July 2, 2025"] ]

def fixDomBadDate : List DomRow :=
  [ ["Name of Organization:", "Org"], ["Title of Activity:", "Act"],
    ["Start Date of Implementation:", "soon"],
    ["End Date of Implementation:", "July 2, 2025"] ]

def fixDomNoOrg : List DomRow :=
  [ ["Title of Activity:", "Act"],
    ["Start Date of Implementation:", "July 1, 2025"],
    ["End Date of Implementation:", "July 2, 2025"] ]

def fixMsg (dom : List DomRow) : Msg :=
  ⟨[("Date", "Tue, 1 Jul 2025 10:00:00 +0800"), ("Subject", "POA done")], "<html>", some dom⟩

/-- The JS date parses shared by the C4/C6 fixtures. -/
def fixParseDateD (s : String) : Option SDate :=
  if s = "July 1, 2025" then some ⟨2025, 6, 1⟩
  else if s = "July 2, 2025" then some ⟨2025, 6, 2⟩
  else none

/-- World for C4: one message without an organization row (valid dates)
and one without a start-date row. -/
def fixW4 : World :=
  ⟨fun id =>
    if id = "mo" then .ok (fixMsg fixDomNoOrg)
    else if id = "ms" then .ok (fixMsg [["Name of Organization:", "Org"], ["Title of Activity:", "Act"], ["End Date of Implementation:", "July 2, 2025"]])
    else .error "absent",
   fixParseDateD, fun _ => none, fun _ => "https://pdf.example/x", fun _ => []⟩

/-- World for C6's end-to-end scenario: 12 candidate ids, of which e09
and e12 have an unparseable start date and e10 has no organization row. -/
def fixW6 : World :=
  ⟨fun id =>
    if id = "e09" ∨ id = "e12" then .ok (fixMsg fixDomBadDate)
    else if id = "e10" then .ok (fixMsg fixDomNoOrg)
    else .ok (fixMsg fixDomValid),
   fixParseDateD, fun _ => none, fun _ => "https://pdf.example/x",
   fun _ => [["e12", "e11", "e10", "e09", "e08", "e07", "e06", "e05", "e04", "e03", "e02", "e01"]]⟩

/-! Fixtures for the C10 witness: a message whose end date (May 2025)
precedes the first day of its start date's month (July 2025). -/

def fixDomEndBefore : List DomRow :=
  [ ["Name of Organization:", "Org"], ["Title of Activity:", "Act"],
    ["Start Date of Implementation:", "July 1, 2025"],
    ["End Date of Implementation:", "May 1, 2025"] ]

def fixMsg10 : Msg := fixMsg fixDomEndBefore

def fixW10 : World :=
  ⟨fun id => if id = "m" then .ok fixMsg10 else .error "absent",
   fun s =>
     if s = "July 1, 2025" then some ⟨2025, 6, 1⟩
     else if s = "May 1, 2025" then some ⟨2025, 4, 1⟩
     else none,
   fun _ => none, fun _ => "https://pdf.example/x", fun _ => [["m"]]⟩

def fixSt10 : PipeState :=
  ⟨[("m", ⟨"In queue...", .queued, none⟩)], [], [fixLogSheet]⟩

/-- Count of audit-log entries carrying a given status string. -/
def logStatusCount (ss : Spreadsheet) (s : String) : Nat :=
  match findSheet ss LOG_SHEET_NAME with
  | none => 0
  | some sh => (sh.rows.filter (fun r => decide (cellText (r.getD 2 (.strV "")) = s))).length

/-- The `reason` of a held result. -/
def reasonOf : ParsedResult → Option String
  | .held _ _ r _ _ => some r
  | _ => none

/-! # Theorems -/

/-! ## Month bucketing (C5, C10) -/

theorem monthIdx_nextMonth (c : SDate) :
    monthIdx (nextMonth c) = monthIdx c + 1 := by
  unfold nextMonth monthIdx
  by_cases h11 : c.month = 11 <;> simp [h11] <;> omega

theorem nextMonth_month_lt (c : SDate) (h : c.month < 12) : (nextMonth c).month < 12 := by
  unfold nextMonth
  by_cases h11 : c.month = 11 <;> simp [h11]
  omega

theorem nextMonth_day (c : SDate) : (nextMonth c).day = 1 := by
  unfold nextMonth
  by_cases h11 : c.month = 11 <;> simp [h11]

theorem dateLe_iff_monthIdx (c e : SDate) (hc1 : c.day = 1) (hcm : c.month < 12)
    (hem : e.month < 12) (hed : 1 ≤ e.day) :
    dateLe c e ↔ monthIdx c ≤ monthIdx e := by
  unfold dateLe monthIdx
  constructor
  · rintro (h | ⟨h, h' | ⟨h', _⟩⟩) <;> omega
  · intro h
    omega

theorem monthOfIdx_monthIdx (c : SDate) (hc1 : c.day = 1) (hcm : c.month < 12) :
    monthOfIdx (monthIdx c) = c := by
  cases c with
  | mk y m d =>
    simp only [monthOfIdx, monthIdx, SDate.mk.injEq]
    simp only at hc1 hcm
    refine ⟨by omega, by omega, hc1.symm⟩

theorem specMonthSeq_nil (lo hi : Int) (h : hi < lo) : specMonthSeq lo hi = [] := by
  unfold specMonthSeq
  have h0 : (hi + 1 - lo).toNat = 0 := by omega
  rw [h0]
  rfl

theorem specMonthSeq_cons (lo hi : Int) (h : lo ≤ hi) :
    specMonthSeq lo hi = monthOfIdx lo :: specMonthSeq (lo + 1) hi := by
  unfold specMonthSeq
  have hn : (hi + 1 - lo).toNat = (hi + 1 - (lo + 1)).toNat + 1 := by omega
  rw [hn, List.range_succ_eq_map, List.map_cons, List.map_map]
  congr 1
  · norm_num
  · apply List.map_congr_left
    intro i _
    simp only [Function.comp_apply]
    congr 1
    push_cast
    ring

theorem monthsGo_not_le (fuel : Nat) (c e : SDate) (h : ¬ dateLe c e) :
    monthsGo fuel c e = [] := by
  cases fuel <;> simp [monthsGo, h]

theorem monthsGo_eq_spec (fuel : Nat) (c e : SDate) (hem : e.month < 12) (hed : 1 ≤ e.day)
    (hc1 : c.day = 1) (hcm : c.month < 12) (hf : monthFuel c e ≤ fuel) :
    monthsGo fuel c e = specMonthSeq (monthIdx c) (monthIdx e) := by
  induction fuel generalizing c with
  | zero =>
      unfold monthFuel at hf
      have hlt : monthIdx e < monthIdx c := by omega
      rw [specMonthSeq_nil _ _ hlt]
      rfl
  | succ n ih =>
      by_cases hle : dateLe c e
      · have hidx : monthIdx c ≤ monthIdx e :=
          (dateLe_iff_monthIdx c e hc1 hcm hem hed).mp hle
        rw [specMonthSeq_cons _ _ hidx, monthOfIdx_monthIdx c hc1 hcm]
        simp only [monthsGo, if_pos hle]
        congr 1
        have h1 : monthIdx (nextMonth c) = monthIdx c + 1 := monthIdx_nextMonth c
        have hfn : monthFuel (nextMonth c) e ≤ n := by
          unfold monthFuel at hf ⊢
          rw [h1]
          omega
        rw [ih (nextMonth c) (nextMonth_day c) (nextMonth_month_lt c hcm) hfn, h1]
      · have hgt : ¬ monthIdx c ≤ monthIdx e :=
          fun hh => hle ((dateLe_iff_monthIdx c e hc1 hcm hem hed).mpr hh)
        rw [monthsGo_not_le _ _ _ hle, specMonthSeq_nil]
        omega

/-- C5: for every pair of valid dates with start ≤ end, the Month
Bucketer (`getMonthsBetweenDates`) emits exactly the inclusive,
chronologically ordered sequence of first-of-month dates from start's
month through end's month (`specMonthSeq`, written from the spec's
words), which `formatMonthYear` renders as the canonical
"Month - Year" labels; the witness instantiates the spec's concrete
example start="2025-07-15", end="2025-09-02". -/
theorem claim_C5_month_bucket_sequence (s e : SDate)
    (hsm : s.month < 12) (hem : e.month < 12) (hed : 1 ≤ e.day) (_hse : dateLe s e) :
    getMonthsBetweenDates s e = specMonthSeq (monthIdx s) (monthIdx e) := by
  unfold getMonthsBetweenDates
  have h := monthsGo_eq_spec (monthFuel (firstOfMonth s) e) (firstOfMonth s) e hem hed rfl hsm
    (le_refl _)
  rw [h]
  rfl

/-- Witness for C5 at the spec's concrete example: 2025-07-15 ≤ 2025-09-02
(months valid), and the bucket labels come out as exactly
["July - 2025", "August - 2025", "September - 2025"], in order. -/
theorem claim_C5_month_bucket_sequence_witness :
    ((⟨2025, 6, 15⟩ : SDate).month < 12 ∧ (⟨2025, 8, 2⟩ : SDate).month < 12 ∧
      1 ≤ (⟨2025, 8, 2⟩ : SDate).day ∧ dateLe ⟨2025, 6, 15⟩ ⟨2025, 8, 2⟩) ∧
    (getMonthsBetweenDates ⟨2025, 6, 15⟩ ⟨2025, 8, 2⟩).map formatMonthYear
      = ["July - 2025", "August - 2025", "September - 2025"] := by
  refine ⟨by decide, ?_⟩
  rw [claim_C5_month_bucket_sequence ⟨2025, 6, 15⟩ ⟨2025, 8, 2⟩ (by decide) (by decide)
    (by decide) (by decide)]
  decide

/-! ## Record extraction (C9) -/

theorem getLast?_cons_alt {α : Type} (a : α) (l : List α) :
    (a :: l).getLast? = match l.getLast? with | some b => some b | none => some a := by
  cases l with
  | nil => rfl
  | cons b l' =>
      rw [List.getLast?_cons_cons]
      have h : (b :: l').getLast?.isSome := by simp [List.getLast?_isSome]
      cases hh : (b :: l').getLast? with
      | none => rw [hh] at h; simp at h
      | some v => rfl

theorem lastLabelled_cons (r : DomRow) (rows : List DomRow) (label : String) :
    lastLabelled (r :: rows) label =
      match lastLabelled rows label with
      | some v => some v
      | none => rowMatch label r := by
  unfold lastLabelled
  rw [List.filterMap_cons]
  cases hm : rowMatch label r with
  | none =>
      cases hl : (rows.filterMap (rowMatch label)).getLast? <;> simp [hl]
  | some v =>
      rw [getLast?_cons_alt]
      cases hl : (rows.filterMap (rowMatch label)).getLast? <;> rfl

theorem trim_ne {s l1 l2 : String} (h : s = l2) (hne : l2 ≠ l1) : ¬ (s = l1) := by
  rw [h]; exact hne

set_option maxHeartbeats 1000000 in
theorem getPD_applyRow (d : PartialDetails) (r : DomRow) (f : Field) :
    getPD (applyRow d r) f =
      match rowMatch (labelOfField f) r with
      | some v => some v
      | none => getPD d f := by
  rcases r with _ | ⟨c0, _ | ⟨c1, rest⟩⟩
  · cases f <;> rfl
  · cases f <;> rfl
  · simp only [applyRow, rowMatch, labelOfField]
    cases f
    case title =>
      by_cases h : jsTrim c0 = labelTitle
      · simp only [if_pos h, getPD]
      · split_ifs <;> simp_all [getPD]
    case organization =>
      by_cases h : jsTrim c0 = labelOrganization
      · simp only [if_neg (trim_ne h (show labelOrganization ≠ labelTitle by decide)),
          if_pos h, getPD]
      · split_ifs <;> simp_all [getPD]
    case startDate =>
      by_cases h : jsTrim c0 = labelStartDate
      · simp only [if_neg (trim_ne h (show labelStartDate ≠ labelTitle by decide)), if_neg (trim_ne h (show labelStartDate ≠ labelOrganization by decide)),
          if_pos h, getPD]
      · split_ifs <;> simp_all [getPD]
    case endDate =>
      by_cases h : jsTrim c0 = labelEndDate
      · simp only [if_neg (trim_ne h (show labelEndDate ≠ labelTitle by decide)), if_neg (trim_ne h (show labelEndDate ≠ labelOrganization by decide)), if_neg (trim_ne h (show labelEndDate ≠ labelStartDate by decide)),
          if_pos h, getPD]
      · split_ifs <;> simp_all [getPD]
    case description =>
      by_cases h : jsTrim c0 = labelDescription
      · simp only [if_neg (trim_ne h (show labelDescription ≠ labelTitle by decide)), if_neg (trim_ne h (show labelDescription ≠ labelOrganization by decide)), if_neg (trim_ne h (show labelDescription ≠ labelStartDate by decide)), if_neg (trim_ne h (show labelDescription ≠ labelEndDate by decide)),
          if_pos h, getPD]
      · split_ifs <;> simp_all [getPD]
    case time =>
      by_cases h : jsTrim c0 = labelTime
      · simp only [if_neg (trim_ne h (show labelTime ≠ labelTitle by decide)), if_neg (trim_ne h (show labelTime ≠ labelOrganization by decide)), if_neg (trim_ne h (show labelTime ≠ labelStartDate by decide)), if_neg (trim_ne h (show labelTime ≠ labelEndDate by decide)), if_neg (trim_ne h (show labelTime ≠ labelDescription by decide)),
          if_pos h, getPD]
      · split_ifs <;> simp_all [getPD]
    case venue =>
      by_cases h : jsTrim c0 = labelVenue
      · simp only [if_neg (trim_ne h (show labelVenue ≠ labelTitle by decide)), if_neg (trim_ne h (show labelVenue ≠ labelOrganization by decide)), if_neg (trim_ne h (show labelVenue ≠ labelStartDate by decide)), if_neg (trim_ne h (show labelVenue ≠ labelEndDate by decide)), if_neg (trim_ne h (show labelVenue ≠ labelDescription by decide)), if_neg (trim_ne h (show labelVenue ≠ labelTime by decide)),
          if_pos h, getPD]
      · split_ifs <;> simp_all [getPD]
    case type_ =>
      by_cases h : jsTrim c0 = labelType
      · simp only [if_neg (trim_ne h (show labelType ≠ labelTitle by decide)), if_neg (trim_ne h (show labelType ≠ labelOrganization by decide)), if_neg (trim_ne h (show labelType ≠ labelStartDate by decide)), if_neg (trim_ne h (show labelType ≠ labelEndDate by decide)), if_neg (trim_ne h (show labelType ≠ labelDescription by decide)), if_neg (trim_ne h (show labelType ≠ labelTime by decide)), if_neg (trim_ne h (show labelType ≠ labelVenue by decide)),
          if_pos h, getPD]
      · split_ifs <;> simp_all [getPD]

theorem getPD_foldl (rows : List DomRow) (d : PartialDetails) (f : Field) :
    getPD (rows.foldl applyRow d) f =
      match lastLabelled rows (labelOfField f) with
      | some v => some v
      | none => getPD d f := by
  induction rows generalizing d with
  | nil => rfl
  | cons r rs ih =>
      rw [List.foldl_cons, ih, lastLabelled_cons, getPD_applyRow]
      cases lastLabelled rs (labelOfField f) <;> cases rowMatch (labelOfField f) r <;> rfl

theorem getAD_parseEmailBody (dom : Option (List DomRow)) (f : Field) :
    getAD (parseEmailBody dom) f = jsOr (getPD (parseActivityDetailsFromHtml dom) f) sentinel := by
  cases f <;> rfl

/-- C9: record extraction is total — for every DOM parse outcome of the
HTML body (including a throwing parser, `dom = none`), every one of the
eight fields of `parseEmailBody` is the string the spec prescribes: the
trimmed right cell of the last matching labelled row when one matched
with non-empty text, and the fixed sentinel "Not Found" for every
unmatched or empty field (`specField`, written from the spec's words). -/
theorem claim_C9_extractor_total_sentinel (dom : Option (List DomRow)) (f : Field) :
    getAD (parseEmailBody dom) f =
      match dom with
      | none => sentinel
      | some rows => specField rows (labelOfField f) := by
  rw [getAD_parseEmailBody]
  cases dom with
  | none => cases f <;> rfl
  | some rows =>
      simp only [parseActivityDetailsFromHtml]
      rw [getPD_foldl]
      unfold specField
      cases lastLabelled rows (labelOfField f) with
      | none => cases f <;> rfl
      | some v => simp [jsOr]

/-! ## Hyperlink encoding (C7) -/

/-- C7 counterexample: the claim as frozen quantifies over every
hyperlink cell value `{url, text}`, but the encoder only builds a
formula for a truthy (non-empty) url; at `{url: "", text: "L"}` the cell
falls through to the object stringification and is written as the plain
text "[object Object]", not a formula. -/
theorem claim_C7_counterexample :
    encodeCell 9 (JSVal.vhyperlink "" (some "L")) = CellValue.strV "[object Object]" ∧
    encodeCell 9 (JSVal.vhyperlink "" (some "L"))
      ≠ CellValue.formulaV ("=HYPERLINK(\"" ++ escQuotes "" ++ "\",\"" ++ escQuotes "L" ++ "\")") := by
  decide

/-- C7 (amended: non-empty url): for every hyperlink cell value
`{url, text}` with a non-empty url, the Row Encoder renders a formula
cell `=HYPERLINK("<url>","<text>")` with every double quote in both url
and text escaped by doubling (`escQuotes`); `text` missing defaults to
the url (JS `text ?? url`). -/
theorem claim_C7_hyperlink_encoding (idx : Nat) (url : String) (text : Option String)
    (h : url ≠ "") :
    encodeCell idx (JSVal.vhyperlink url text)
      = CellValue.formulaV
          ("=HYPERLINK(\"" ++ escQuotes url ++ "\",\"" ++ escQuotes (text.getD url) ++ "\")") := by
  simp only [encodeCell]
  rw [if_pos h]

/-- Witness for C7 at the spec's concrete example: the cell
`{url:"https://x/a"b", text:"L"}` encodes to the formula text
`=HYPERLINK("https://x/a""b","L")`. -/
theorem claim_C7_hyperlink_encoding_witness :
    ("https://x/a\"b" : String) ≠ "" ∧
    encodeCell 9 (JSVal.vhyperlink "https://x/a\"b" (some "L"))
      = CellValue.formulaV "=HYPERLINK(\"https://x/a\"\"b\",\"L\")" := by
  refine ⟨by decide, ?_⟩
  rw [claim_C7_hyperlink_encoding 9 "https://x/a\"b" (some "L") (by decide)]
  decide

/-! ## Filter resolution order (C3) -/

theorem omax_none_right (a : Option Int) : omax a none = a := by
  cases a <;> rfl

theorem ite_gt_eq_max (l t : Int) : (if t > l then t else l) = max l t := by
  rcases le_or_lt t l with h | h
  · rw [if_neg (not_lt.mpr h), max_eq_left h]
  · rw [if_pos h, max_eq_right h.le]

theorem omax_assoc (a b c : Option Int) : omax (omax a b) c = omax a (omax b c) := by
  cases a <;> cases b <;> cases c <;> simp [omax, max_assoc]

/-- The extracted timestamp of one log row (truthy cell, JS parse). -/
theorem specMaxTs_cons (w : World) (p : String × String) (rows : List (String × String)) :
    specMaxTs w (p :: rows)
      = omax (if p.1 = "" then none else w.parseDateMs p.1) (specMaxTs w rows) := by
  unfold specMaxTs
  rw [List.filterMap_cons]
  cases hc : (if p.1 = "" then none else w.parseDateMs p.1) with
  | none => rfl
  | some t =>
      rw [List.max?_cons]
      cases hmx : (List.filterMap (fun p => if p.1 = "" then none else w.parseDateMs p.1) rows).max? <;>
        simp [omax, hmx, Option.elim]

theorem maxTsStep_eq (w : World) (latest : Option Int) (p : String × String) :
    maxTsStep w latest p = omax latest (if p.1 = "" then none else w.parseDateMs p.1) := by
  unfold maxTsStep
  by_cases hp : p.1 = ""
  · rw [if_pos hp, if_pos hp, omax_none_right]
  · rw [if_neg hp, if_neg hp]
    cases w.parseDateMs p.1 with
    | none => rw [omax_none_right]
    | some t =>
        cases latest with
        | none => rfl
        | some l =>
            show (if t > l then some t else some l) = some (max l t)
            rcases le_or_lt t l with h | h
            · rw [if_neg (not_lt.mpr h), max_eq_left h]
            · rw [if_pos h, max_eq_right h.le]

theorem maxTsGo_eq_spec (w : World) (rows : List (String × String)) :
    ∀ latest, maxTsGo w rows latest = omax latest (specMaxTs w rows) := by
  induction rows with
  | nil => intro latest; cases latest <;> rfl
  | cons p rows ih =>
      intro latest
      have hcons : maxTsGo w (p :: rows) latest = maxTsGo w rows (maxTsStep w latest p) := by
        simp [maxTsGo]
      rw [hcons, ih, maxTsStep_eq, omax_assoc, ← specMaxTs_cons]

/-- C3: the query filter is resolved in the spec's precedence order — a
valid explicit manual start date (converted to unix seconds) wins;
otherwise, with the date filter enabled and a readable log, the lower
bound is the maximum timestamp present in the audit log floored to whole
unix seconds; with neither (including the missing-log fallback), the
query is unfiltered.  `specLowerBound` is the resolution written from
the spec's words, and `renderAfter` appends it as the single
`after:<unixSeconds>` term.  In particular the effective lower bound of a
run equals the maximum timestamp the previous run left in the log. -/
theorem claim_C3_filter_resolution (w : World) (ss : Spreadsheet) (sender : String)
    (manual : Option String) (udf : Bool) (hman : manualOk w manual = true) :
    (cursorPhase w ss sender manual udf).1
      = baseQuery sender ++ renderAfter (specLowerBound w ss manual udf) := by
  cases manual with
  | some s =>
      simp only [cursorPhase, specLowerBound]
      simp only [manualOk] at hman
      cases hp : w.parseDateMs (s ++ "T00:00:00") with
      | none => rw [hp] at hman; simp at hman
      | some ms => simp [hp, renderAfter, String.append_assoc]
  | none =>
      simp only [cursorPhase, specLowerBound]
      by_cases hu : udf
      · simp only [if_pos hu]
        cases hsh : findSheet ss LOG_SHEET_NAME with
        | none => simp [renderAfter]
        | some sh =>
            simp only
            rw [maxTsGo_eq_spec]
            cases hmx : specMaxTs w (logView sh) <;>
              simp [omax, renderAfter, String.append_assoc]
      · simp [hu, renderAfter]

/-- Witness for C3: with no manual date, the date filter on and a log
whose maximum parseable timestamp is 1748772000999 ms, the built query is
the base query plus the single term `after:1748772000` (floored to whole
seconds). -/
theorem claim_C3_filter_resolution_witness :
    manualOk fixW3 none = true ∧
    (cursorPhase fixW3 fixSS3 "a@b.c" none true).1
      = baseQuery "a@b.c" ++ renderAfter (specLowerBound fixW3 fixSS3 none true) ∧
    baseQuery "a@b.c" ++ renderAfter (specLowerBound fixW3 fixSS3 none true)
      = "from:a@b.c \"POA\" \"The request is now complete.\" after:1748772000" := by
  refine ⟨rfl, claim_C3_filter_resolution fixW3 fixSS3 "a@b.c" none true rfl, by decide⟩

/-! ## Idempotent dedup (C2) and pagination (C8) -/

theorem fetchPages_mem (seen : List String) :
    ∀ (pages : List (List String)) (acc : List String) (id : String),
      id ∈ (fetchPages seen pages acc).1 → id ∈ acc ∨ id ∉ seen := by
  intro pages
  induction pages with
  | nil => intro acc id h; exact Or.inl h
  | cons page rest ih =>
      intro acc id h
      simp only [fetchPages] at h
      by_cases hcap : MAX_MESSAGES ≤ (acc ++ page.filter (fun id => id ∉ seen)).length
      · rw [if_pos hcap] at h
        simp only at h
        rcases List.mem_append.mp h with ha | hf
        · exact Or.inl ha
        · exact Or.inr (of_decide_eq_true (List.mem_filter.mp hf).2)
      · rw [if_neg hcap] at h
        simp only at h
        rcases ih _ id h with ha | hs
        · rcases List.mem_append.mp ha with ha' | hf
          · exact Or.inl ha'
          · exact Or.inr (of_decide_eq_true (List.mem_filter.mp hf).2)
        · exact Or.inr hs

/-- C2 (amended: a run with no manual start date, the date filter
enabled, and a readable log — the source's normal incremental path):
every id with a non-empty entry in the log's Message ID column is
dropped from the candidate list before processing, so it is never
re-fetched or re-written. -/
theorem claim_C2_logged_ids_dropped (w : World) (ss : Spreadsheet) (sender : String)
    (sh : SheetT) (hsh : findSheet ss LOG_SHEET_NAME = some sh) :
    ∀ id ∈ loggedIds (logView sh), id ∉ candidatesOf w ss sender none true := by
  intro id hid hmem
  unfold candidatesOf at hmem
  simp only [cursorPhase, hsh] at hmem
  rcases fetchPages_mem _ _ _ _ hmem with ha | hs
  · exact (List.not_mem_nil id) ha
  · exact hs hid

/-- Witness for C2: in the fixture log, `m1` is logged, and a
date-filtered run without a manual date does not fetch it even though
Gmail returns it. -/
theorem claim_C2_logged_ids_dropped_witness :
    findSheet fixSS3 LOG_SHEET_NAME = some fixLogSheet ∧
    "m1" ∈ loggedIds (logView fixLogSheet) ∧
    "m1" ∉ candidatesOf fixW2 fixSS3 "a@b.c" none true := by
  refine ⟨rfl, by decide, ?_⟩
  exact claim_C2_logged_ids_dropped fixW2 fixSS3 "a@b.c" fixLogSheet rfl "m1" (by decide)

/-- C2 counterexample: the claim as frozen quantifies over every run,
but a run with a manual start date skips the dedup-set read entirely:
with `m1` already in the audit log and Gmail returning it, `m1` is in
the candidate list and is re-fetched and re-written. -/
theorem claim_C2_counterexample :
    "m1" ∈ loggedIds (logView fixLogSheet) ∧
    findSheet fixSS3 LOG_SHEET_NAME = some fixLogSheet ∧
    "m1" ∈ candidatesOf fixW2 fixSS3 "a@b.c" (some "2025-01-01") true := by
  decide

theorem fetchPages_len_le (seen : List String) :
    ∀ (pages : List (List String)) (acc : List String),
      (∀ p ∈ pages, p.length ≤ 500) → acc.length ≤ 999 →
      (fetchPages seen pages acc).1.length ≤ 1499 := by
  intro pages
  induction pages with
  | nil => intro acc _ hacc; simpa [fetchPages] using le_trans hacc (by norm_num)
  | cons page rest ih =>
      intro acc hp hacc
      have hpage : page.length ≤ 500 := hp page (List.mem_cons_self page rest)
      have hlen : (acc ++ page.filter (fun id => id ∉ seen)).length ≤ 1499 := by
        rw [List.length_append]
        have := List.length_filter_le (fun id => decide (id ∉ seen)) page
        omega
      simp only [fetchPages]
      by_cases hcap : MAX_MESSAGES ≤ (acc ++ page.filter (fun id => id ∉ seen)).length
      · rw [if_pos hcap]
        exact hlen
      · rw [if_neg hcap]
        simp only
        refine ih _ (fun p hmem => hp p (List.mem_cons_of_mem page hmem)) ?_
        unfold MAX_MESSAGES at hcap
        omega

/-- C8 (amended bound): discovery drops ids already in the dedup set on
every page and stops at the hard cap, but the cap is checked only after
a whole page (of at most 500 ids) has been appended, so the candidate
list is bounded by 1499 — not by 1000 as frozen. -/
theorem claim_C8_pagination (seen : List String) (pages : List (List String))
    (hp : ∀ p ∈ pages, p.length ≤ 500) :
    (fetchPages seen pages []).1.length ≤ 1499 ∧
    ∀ id ∈ (fetchPages seen pages []).1, id ∉ seen := by
  refine ⟨fetchPages_len_le seen pages [] hp (by norm_num), ?_⟩
  intro id hmem
  rcases fetchPages_mem seen pages [] id hmem with ha | hs
  · exact absurd ha (List.not_mem_nil id)
  · exact hs

/-- Witness for C8 on a small concrete instance: two pages of one id
each, one id already seen. -/
theorem claim_C8_pagination_witness :
    (∀ p ∈ [["a"], ["b"]], p.length ≤ 500) ∧
    ((fetchPages ["b"] [["a"], ["b"]] []).1.length ≤ 1499 ∧
      ∀ id ∈ (fetchPages ["b"] [["a"], ["b"]] []).1, id ∉ ["b"]) := by
  exact ⟨by decide, claim_C8_pagination ["b"] [["a"], ["b"]] (by decide)⟩

set_option maxRecDepth 100000 in
/-- C8 counterexample: with server pages of 500, 499 and 2 fresh ids the
run's candidate list reaches 1001 ids — the frozen bound "never exceeds
1000 ids" is false (the cap check runs after appending a whole page). -/
theorem claim_C8_counterexample : 1000 < (fetchPages [] cexPages []).1.length := by
  decide

/-! ## Row-offset allocation (C1) -/

theorem alookup_none_iff {α : Type} (g : List (String × α)) (k : String) :
    alookup g k = none ↔ k ∉ g.map Prod.fst := by
  induction g with
  | nil => simp [alookup]
  | cons p rest ih =>
      simp only [alookup, List.map_cons, List.mem_cons]
      by_cases h : p.1 = k
      · simp [h]
      · simp only [if_neg h, ih]
        constructor
        · intro hn hk
          rcases hk with hk | hk
          · exact h hk.symm
          · exact hn hk
        · intro hn
          exact fun hk => hn (Or.inr hk)

theorem alookup_mem {α : Type} (g : List (String × α)) (k : String) (v : α)
    (h : alookup g k = some v) : (k, v) ∈ g := by
  induction g with
  | nil => simp [alookup] at h
  | cons p rest ih =>
      simp only [alookup] at h
      by_cases hp : p.1 = k
      · rw [if_pos hp] at h
        obtain ⟨a, b⟩ := p
        simp only [Option.some.injEq] at h
        simp only at hp
        subst hp
        subst h
        exact List.mem_cons_self _ _
      · rw [if_neg hp] at h
        exact List.mem_cons_of_mem _ (ih h)

theorem keys_pushRow (g : List (String × List (List JSVal))) (name : String)
    (row : List JSVal) :
    (pushRow g name row).map Prod.fst =
      if (alookup g name).isSome then g.map Prod.fst else g.map Prod.fst ++ [name] := by
  unfold pushRow
  cases h : alookup g name with
  | none => simp [h]
  | some v =>
      simp only [h, Option.isSome_some, if_pos]
      rw [List.map_map]
      apply List.map_congr_left
      intro p _
      by_cases hp : p.1 = name <;> simp [hp]

theorem nodup_keys_pushRow (g : List (String × List (List JSVal))) (name : String)
    (row : List JSVal) (h : (g.map Prod.fst).Nodup) :
    ((pushRow g name row).map Prod.fst).Nodup := by
  rw [keys_pushRow]
  cases hl : alookup g name with
  | some v => simpa using h
  | none =>
      simp only [Option.isSome_none, Bool.false_eq_true, if_false]
      have hnm : name ∉ g.map Prod.fst := (alookup_none_iff g name).mp hl
      rw [List.nodup_append]
      refine ⟨h, List.nodup_singleton name, ?_⟩
      intro a ha hb
      rw [List.mem_singleton] at hb
      subst hb
      exact hnm ha

theorem nodup_keys_innerFold (months : List String) (row : List JSVal) :
    ∀ g, (g.map Prod.fst).Nodup →
      ((months.foldl (fun g' n => pushRow g' n row) g).map Prod.fst).Nodup := by
  induction months with
  | nil => intro g h; exact h
  | cons m ms ih =>
      intro g h
      exact ih _ (nodup_keys_pushRow g m row h)

theorem routeBySheet_go_nodup (successes : List SuccessData) :
    ∀ (g : List (String × List (List JSVal))), (g.map Prod.fst).Nodup →
      ((successes.foldl
        (fun g r => r.monthSheetNames.foldl (fun g' name => pushRow g' name r.rowData) g)
        g).map Prod.fst).Nodup := by
  induction successes with
  | nil => intro g h; exact h
  | cons r rs ih =>
      intro g h
      exact ih _ (nodup_keys_innerFold r.monthSheetNames r.rowData g h)

theorem routeBySheet_keys_nodup (successes : List SuccessData) :
    ((routeBySheet successes).map Prod.fst).Nodup := by
  unfold routeBySheet
  exact routeBySheet_go_nodup successes [] (by simp)

theorem updateCellsOf_append (l1 l2 : List SheetRequest) (sid : Nat) :
    updateCellsOf (l1 ++ l2) sid = updateCellsOf l1 sid ++ updateCellsOf l2 sid := by
  unfold updateCellsOf
  exact List.filterMap_append l1 l2 _

theorem updateCellsOf_flatten (ls : List (List SheetRequest)) (sid : Nat) :
    updateCellsOf ls.flatten sid = (ls.map (fun l => updateCellsOf l sid)).flatten := by
  induction ls with
  | nil => rfl
  | cons l rest ih =>
      rw [List.flatten_cons, updateCellsOf_append, ih, List.map_cons, List.flatten_cons]

theorem updateCellsOf_appendDim (sid' n : Nat) (rest : List SheetRequest) (sid : Nat) :
    updateCellsOf (SheetRequest.appendDimension sid' n :: rest) sid = updateCellsOf rest sid := by
  simp [updateCellsOf]

theorem updateCellsOf_generateRowRequests (sid' rI : Nat) (row : List JSVal) (sid : Nat) :
    updateCellsOf (generateRowRequests sid' rI row) sid =
      if sid' = sid then [(rI, encodeRow row)] else [] := by
  unfold generateRowRequests updateCellsOf CONDITIONAL_FORMAT_KEYS
  by_cases h : sid' = sid <;> simp [h]

theorem flatten_map_singleton {α β : Type} (l : List α) (f : α → β) :
    (l.map (fun a => [f a])).flatten = l.map f := by
  induction l <;> simp_all

theorem flatten_map_nil {α β : Type} (l : List α) :
    (l.map (fun _ => ([] : List β))).flatten = [] := by
  induction l <;> simp_all

theorem updateCellsOf_sheetGroupRequests_hit (state : List (String × Nat × Nat))
    (name : String) (rows : List (List JSVal)) (sid L : Nat)
    (hstate : alookup state name = some (sid, L)) :
    updateCellsOf (sheetGroupRequests state (name, rows)) sid
      = rows.enum.map (fun p => (L + p.1, encodeRow p.2)) := by
  unfold sheetGroupRequests
  rw [hstate]
  simp only
  rw [updateCellsOf_appendDim, updateCellsOf_flatten, List.map_map]
  have h2 : ∀ p ∈ rows.enum,
      ((fun l => updateCellsOf l sid) ∘ fun p => generateRowRequests sid (L + p.1) p.2) p
        = (fun p : Nat × List JSVal => [(L + p.1, encodeRow p.2)]) p := by
    intro p _
    simp [updateCellsOf_generateRowRequests]
  rw [List.map_congr_left h2, flatten_map_singleton]

theorem updateCellsOf_sheetGroupRequests_miss (state : List (String × Nat × Nat))
    (g : String × List (List JSVal)) (sid : Nat)
    (hmiss : ∀ s' l', alookup state g.1 = some (s', l') → s' ≠ sid) :
    updateCellsOf (sheetGroupRequests state g) sid = [] := by
  unfold sheetGroupRequests
  cases hst : alookup state g.1 with
  | none => rfl
  | some v =>
      obtain ⟨s', l'⟩ := v
      have hne : s' ≠ sid := hmiss s' l' hst
      simp only
      rw [updateCellsOf_appendDim, updateCellsOf_flatten, List.map_map]
      have h2 : ∀ p ∈ g.2.enum,
          ((fun l => updateCellsOf l sid) ∘ fun p => generateRowRequests s' (l' + p.1) p.2) p
            = (fun _ : Nat × List JSVal => ([] : List (Nat × List CellValue))) p := by
        intro p _
        simp only [Function.comp_apply, updateCellsOf_generateRowRequests, if_neg hne]
      rw [List.map_congr_left h2, flatten_map_nil]

theorem buildMasterRequest_cons (g : String × List (List JSVal))
    (gs : List (String × List (List JSVal))) (state : List (String × Nat × Nat)) :
    buildMasterRequest (g :: gs) state
      = sheetGroupRequests state g ++ buildMasterRequest gs state := by
  simp [buildMasterRequest]

theorem buildMasterRequest_all_miss (gs : List (String × List (List JSVal)))
    (state : List (String × Nat × Nat)) (sid : Nat)
    (h : ∀ g ∈ gs, updateCellsOf (sheetGroupRequests state g) sid = []) :
    updateCellsOf (buildMasterRequest gs state) sid = [] := by
  induction gs with
  | nil => rfl
  | cons g' gs' ih =>
      rw [buildMasterRequest_cons, updateCellsOf_append]
      rw [h g' (List.mem_cons_self _ _)]
      rw [List.nil_append]
      exact ih (fun g hg => h g (List.mem_cons_of_mem _ hg))

theorem updateCellsOf_buildMasterRequest (groups : List (String × List (List JSVal)))
    (state : List (String × Nat × Nat)) (name : String) (rows : List (List JSVal))
    (sid L : Nat)
    (hnd : (groups.map Prod.fst).Nodup)
    (hmem : alookup groups name = some rows)
    (hstate : alookup state name = some (sid, L))
    (hothers : ∀ n' s' l', n' ≠ name → alookup state n' = some (s', l') → s' ≠ sid) :
    updateCellsOf (buildMasterRequest groups state) sid
      = rows.enum.map (fun p => (L + p.1, encodeRow p.2)) := by
  induction groups with
  | nil => simp [alookup] at hmem
  | cons g gs ih =>
      rw [List.map_cons, List.nodup_cons] at hnd
      rw [buildMasterRequest_cons, updateCellsOf_append]
      simp only [alookup] at hmem
      by_cases hg : g.1 = name
      · rw [if_pos hg] at hmem
        have hhit : updateCellsOf (sheetGroupRequests state g) sid
            = rows.enum.map (fun p => (L + p.1, encodeRow p.2)) := by
          obtain ⟨gn, grows⟩ := g
          simp only at hg
          subst hg
          simp only [Option.some.injEq] at hmem
          subst hmem
          exact updateCellsOf_sheetGroupRequests_hit state gn grows sid L hstate
        have htail : updateCellsOf (buildMasterRequest gs state) sid = [] := by
          refine buildMasterRequest_all_miss gs state sid (fun g' hg' => ?_)
          refine updateCellsOf_sheetGroupRequests_miss state g' sid (fun s' l' hst => ?_)
          have hne : g'.1 ≠ name := by
            intro he
            apply hnd.1
            rw [hg, ← he]
            exact List.mem_map_of_mem Prod.fst hg'
          exact hothers g'.1 s' l' hne hst
        rw [hhit, htail, List.append_nil]
      · rw [if_neg hg] at hmem
        rw [updateCellsOf_sheetGroupRequests_miss state g sid
          (fun s' l' hst => hothers g.1 s' l' hg hst)]
        rw [List.nil_append]
        exact ih hnd.2 hmem

theorem computeSheetState_cons (ss : Spreadsheet) (n : String) (rest : List String) :
    computeSheetState ss (n :: rest)
      = match findSheet ss n with
        | none => computeSheetState ss rest
        | some sh' => (n, sh'.sheetId, sh'.rows.length) :: computeSheetState ss rest := by
  unfold computeSheetState
  rw [List.filterMap_cons]
  cases findSheet ss n <;> rfl

theorem findSheet_some (ss : Spreadsheet) (t : String) (sh : SheetT)
    (h : findSheet ss t = some sh) : sh ∈ ss ∧ sh.title = t := by
  unfold findSheet at h
  refine ⟨List.mem_of_find?_eq_some h, of_decide_eq_true ?_⟩
  exact @List.find?_some SheetT (fun s => decide (s.title = t)) sh ss h

theorem alookup_computeSheetState (ss : Spreadsheet) (needed : List String)
    (name : String) (sh : SheetT) (hneed : name ∈ needed)
    (hfound : findSheet ss name = some sh) :
    alookup (computeSheetState ss needed) name = some (sh.sheetId, sh.rows.length) := by
  induction needed with
  | nil => cases hneed
  | cons n rest ih =>
      rw [computeSheetState_cons]
      by_cases hn : n = name
      · subst hn
        rw [hfound]
        simp [alookup]
      · have hr : name ∈ rest := by
          rcases List.mem_cons.mp hneed with he | hr
          · exact absurd he.symm hn
          · exact hr
        cases hf : findSheet ss n with
        | none => exact ih hr
        | some sh' =>
            simp only
            rw [show alookup ((n, sh'.sheetId, sh'.rows.length) :: computeSheetState ss rest) name
                = alookup (computeSheetState ss rest) name from by simp [alookup, hn]]
            exact ih hr

theorem computeSheetState_inj (ss : Spreadsheet) (needed : List String)
    (name : String) (sh : SheetT)
    (hids : (ss.map (fun s => s.sheetId)).Nodup)
    (hfound : findSheet ss name = some sh) :
    ∀ n' s' l', n' ≠ name →
      alookup (computeSheetState ss needed) n' = some (s', l') → s' ≠ sh.sheetId := by
  intro n' s' l' hne hl heq
  have hmem := alookup_mem _ _ _ hl
  unfold computeSheetState at hmem
  obtain ⟨n, _, hf⟩ := List.mem_filterMap.mp hmem
  cases hfs : findSheet ss n with
  | none => rw [hfs] at hf; cases hf
  | some sh' =>
      rw [hfs] at hf
      simp only [Option.map_some', Option.some.injEq, Prod.mk.injEq] at hf
      obtain ⟨hfn, hfs', _⟩ := hf
      obtain ⟨hsh'mem, hsh'title⟩ := findSheet_some ss n sh' hfs
      obtain ⟨hshmem, hshtitle⟩ := findSheet_some ss name sh hfound
      have hsheq : sh' = sh :=
        List.inj_on_of_nodup_map hids hsh'mem hshmem (by rw [hfs', heq])
      apply hne
      rw [← hfn, ← hsh'title, hsheq, hshtitle]

theorem keys_innerFold_subset (months : List String) (row : List JSVal) :
    ∀ (g : List (String × List (List JSVal))) (acc : List String),
      (∀ k ∈ g.map Prod.fst, k ∈ acc) →
      ∀ k ∈ ((months.foldl (fun g' n => pushRow g' n row) g).map Prod.fst),
        k ∈ months.foldl (fun a n => if n ∈ a then a else a ++ [n]) acc := by
  induction months with
  | nil => intro g acc h k hk; exact h k hk
  | cons m ms ih =>
      intro g acc h k hk
      refine ih (pushRow g m row) (if m ∈ acc then acc else acc ++ [m]) ?_ k hk
      intro k' hk'
      rw [keys_pushRow] at hk'
      cases hl : alookup g m with
      | some v =>
          rw [hl] at hk'
          simp only [Option.isSome_some, if_true] at hk'
          by_cases hm : m ∈ acc
          · rw [if_pos hm]; exact h k' hk'
          · rw [if_neg hm]; exact List.mem_append.mpr (Or.inl (h k' hk'))
      | none =>
          rw [hl] at hk'
          simp only [Option.isSome_none, Bool.false_eq_true, if_false] at hk'
          rcases List.mem_append.mp hk' with hg' | hm'
          · by_cases hm : m ∈ acc
            · rw [if_pos hm]; exact h k' hg'
            · rw [if_neg hm]; exact List.mem_append.mpr (Or.inl (h k' hg'))
          · rw [List.mem_singleton] at hm'
            subst hm'
            by_cases hm : k' ∈ acc
            · rw [if_pos hm]; exact hm
            · rw [if_neg hm]; exact List.mem_append.mpr (Or.inr (List.mem_singleton.mpr rfl))

theorem routeBySheet_keys_subset (successes : List SuccessData) :
    ∀ k ∈ (routeBySheet successes).map Prod.fst, k ∈ neededNames successes := by
  unfold routeBySheet neededNames
  suffices h : ∀ (g : List (String × List (List JSVal))) (acc : List String),
      (∀ k ∈ g.map Prod.fst, k ∈ acc) →
      ∀ k ∈ ((successes.foldl
        (fun g r => r.monthSheetNames.foldl (fun g' name => pushRow g' name r.rowData) g)
        g).map Prod.fst),
        k ∈ successes.foldl
          (fun acc r => r.monthSheetNames.foldl (fun a n => if n ∈ a then a else a ++ [n]) acc)
          acc by
    exact h [] [LOG_SHEET_NAME] (by simp)
  induction successes with
  | nil => intro g acc h k hk; exact h k hk
  | cons r rs ih =>
      intro g acc h k hk
      exact ih _ _ (keys_innerFold_subset r.monthSheetNames r.rowData g acc h) k hk

/-- C1: for every macro-batch and every destination bucket, the N
successful records routed to that bucket receive, in routing order, the
N consecutive row offsets `lastRow, lastRow+1, ..., lastRow+N-1` in the
batch's single mutation set, where `lastRow` is the bucket's row count
read fresh from the spreadsheet within this macro-batch
(`computeSheetState`, which `runBatch` derives from the
just-provisioned spreadsheet); in particular the offsets are pairwise
distinct — no two records destined for one bucket share an offset. -/
theorem claim_C1_row_offsets (successes : List SuccessData) (ss : Spreadsheet)
    (name : String) (rows : List (List JSVal)) (sh : SheetT)
    (hids : (ss.map (fun s => s.sheetId)).Nodup)
    (hgroups : alookup (routeBySheet successes) name = some rows)
    (hfound : findSheet ss name = some sh) :
    updateCellsOf
        (buildMasterRequest (routeBySheet successes)
          (computeSheetState ss (neededNames successes))) sh.sheetId
      = rows.enum.map (fun p => (sh.rows.length + p.1, encodeRow p.2)) ∧
    (updateCellsOf
        (buildMasterRequest (routeBySheet successes)
          (computeSheetState ss (neededNames successes))) sh.sheetId).map Prod.fst
      = (List.range rows.length).map (fun i => sh.rows.length + i) ∧
    ((updateCellsOf
        (buildMasterRequest (routeBySheet successes)
          (computeSheetState ss (neededNames successes))) sh.sheetId).map Prod.fst).Nodup := by
  have hneed : name ∈ neededNames successes := by
    apply routeBySheet_keys_subset successes
    by_contra h
    rw [← alookup_none_iff] at h
    rw [h] at hgroups
    cases hgroups
  have h1 := updateCellsOf_buildMasterRequest (routeBySheet successes)
    (computeSheetState ss (neededNames successes)) name rows sh.sheetId sh.rows.length
    (routeBySheet_keys_nodup successes) hgroups
    (alookup_computeSheetState ss (neededNames successes) name sh hneed hfound)
    (computeSheetState_inj ss (neededNames successes) name sh hids hfound)
  have h2 : (updateCellsOf
      (buildMasterRequest (routeBySheet successes)
        (computeSheetState ss (neededNames successes))) sh.sheetId).map Prod.fst
      = (List.range rows.length).map (fun i => sh.rows.length + i) := by
    rw [h1, List.map_map]
    rw [show (Prod.fst ∘ fun p : Nat × List JSVal => (sh.rows.length + p.1, encodeRow p.2))
        = ((fun i => sh.rows.length + i) ∘ Prod.fst) from rfl]
    rw [← List.map_map, List.enum_map_fst]
  refine ⟨h1, h2, ?_⟩
  rw [h2]
  refine List.Nodup.map ?_ (List.nodup_range rows.length)
  intro a b hab
  simp only at hab
  omega

/-- Witness for C1: two records routed to "July - 2025" in a spreadsheet
whose July bucket already holds 4 rows get the distinct consecutive
offsets 4 and 5. -/
theorem claim_C1_row_offsets_witness :
    ((fixSS1.map (fun s => s.sheetId)).Nodup ∧
      alookup (routeBySheet [fixSucc1, fixSucc2]) "July - 2025" = some [fixRow1, fixRow2] ∧
      findSheet fixSS1 "July - 2025" = some fixJulySheet) ∧
    (updateCellsOf
        (buildMasterRequest (routeBySheet [fixSucc1, fixSucc2])
          (computeSheetState fixSS1 (neededNames [fixSucc1, fixSucc2])))
        fixJulySheet.sheetId).map Prod.fst = [4, 5] := by
  refine ⟨⟨by decide, by decide, by decide⟩, ?_⟩
  have h := claim_C1_row_offsets [fixSucc1, fixSucc2] fixSS1 "July - 2025"
    [fixRow1, fixRow2] fixJulySheet (by decide) (by decide) (by decide)
  rw [h.2.1]
  decide

/-! ## Held vs. error classification (C4) -/

/-- C4 evaluated at its failing input: the claim (and the source's own
dead guard with its "Missing organization or title" error message) says a
sentinel organization yields status error, but `parseEmailBody`
substitutes the truthy string "Not Found" before the guard runs, so a
message without an organization row and with valid dates is classified
`success` — the guard can never fire.  The startDate half of the claim
does hold: a sentinel start date yields `held` with a reason mentioning
"Start Date". -/
theorem claim_C4_sentinel_classification :
    (parseEmailBody (fixMsg fixDomNoOrg).dom).organization = sentinel ∧
    statusOf (fetchAndParseEmail fixW4 ⟨[], [], []⟩ "mo").2 = "success" ∧
    statusOf (fetchAndParseEmail fixW4 ⟨[], [], []⟩ "ms").2 = "held" ∧
    reasonOf (fetchAndParseEmail fixW4 ⟨[], [], []⟩ "ms").2
      = some "Start Date missing or invalid" := by
  refine ⟨by decide, by decide, by decide, by decide⟩

/-! ## Audit-log rows per outcome, end-to-end (C6) -/

set_option maxRecDepth 100000 in
/-- C6 evaluated at the spec's 12-candidate scenario: with 2
invalid-date records and 1 missing-organization record, the claim
expects 9 done / 2 held / 1 error and 11 new audit rows; the code instead
classifies the missing-organization record as a success (the dead guard
of C4), giving 10 done / 2 held / 0 error and 12 audit entries (13 log
rows with the header) — 10 "Processed" plus 2 "Held (dates needed)", and
indeed no row for an error outcome. -/
theorem claim_C6_log_rows_per_outcome :
    (processEmails fixW6 [] "s@x.y" none false).processed = 10 ∧
    countStatus (processEmails fixW6 [] "s@x.y" none false).st.tasks .done = 10 ∧
    countStatus (processEmails fixW6 [] "s@x.y" none false).st.tasks .held = 2 ∧
    countStatus (processEmails fixW6 [] "s@x.y" none false).st.tasks .error = 0 ∧
    (findSheet (processEmails fixW6 [] "s@x.y" none false).st.ss LOG_SHEET_NAME).map
        (fun sh => sh.rows.length) = some 13 ∧
    logStatusCount (processEmails fixW6 [] "s@x.y" none false).st.ss "Processed" = 10 ∧
    logStatusCount (processEmails fixW6 [] "s@x.y" none false).st.ss "Held (dates needed)" = 2 := by
  refine ⟨by decide, by decide, by decide, by decide, by decide, by decide, by decide⟩

/-! ## End-before-start records (C10) -/

theorem jsOr_sentinel_ne_empty (v : Option String) : jsOr v sentinel ≠ "" := by
  cases v with
  | none => simp [jsOr, sentinel]
  | some s =>
      simp only [jsOr]
      by_cases h : s = ""
      · simp [h, sentinel]
      · simp [h]

theorem dateLt_not_le (a b : SDate) (h : dateLt a b) : ¬ dateLe b a := by
  unfold dateLt at h
  unfold dateLe
  rcases h with h | ⟨h1, h2 | ⟨h2, h3⟩⟩ <;> rintro (g | ⟨g1, g2 | ⟨g2, g3⟩⟩) <;> omega

theorem getMonthsBetweenDates_empty (sd ed : SDate) (h : ¬ dateLe (firstOfMonth sd) ed) :
    getMonthsBetweenDates sd ed = [] := by
  unfold getMonthsBetweenDates
  exact monthsGo_not_le _ _ _ h

theorem findSheet_appendToSheet (ss : Spreadsheet) (t : String)
    (rows : List (List CellValue)) (n : String) :
    findSheet (appendToSheet ss t rows) n
      = if t = n then (findSheet ss n).map (fun sh => { sh with rows := sh.rows ++ rows })
        else findSheet ss n := by
  induction ss with
  | nil => by_cases h : t = n <;> simp [appendToSheet, findSheet, h]
  | cons sh' rest ih =>
      unfold appendToSheet at ih ⊢
      unfold findSheet at ih ⊢
      rw [List.map_cons]
      by_cases hsh : sh'.title = t
      · rw [if_pos hsh]
        by_cases hn : t = n
        · subst hn
          rw [List.find?_cons_of_pos _ (by simp [hsh]), List.find?_cons_of_pos _ (by simp [hsh])]
          simp
        · rw [List.find?_cons_of_neg _ (by
            simp only [decide_eq_true_eq]
            intro he
            exact hn (hsh.symm.trans he)),
            List.find?_cons_of_neg _ (by
            simp only [decide_eq_true_eq]
            intro he
            exact hn (hsh.symm.trans he))]
          rw [if_neg hn] at ih
          rw [ih, if_neg hn]
  -- the remaining branch: head title differs from t, head unchanged
      · rw [if_neg hsh]
        by_cases hn : sh'.title = n
        · rw [List.find?_cons_of_pos _ (by simp [hn]), List.find?_cons_of_pos _ (by simp [hn])]
          by_cases htn : t = n
          · exact absurd (htn ▸ hn : sh'.title = t) hsh
          · rw [if_neg htn]
        · rw [List.find?_cons_of_neg _ (by simp [hn]), List.find?_cons_of_neg _ (by simp [hn])]
          exact ih

theorem updateTasksBulk_status (st : PipeState) (ids : List String) (s : TStatus) :
    ∀ p ∈ (updateTasksBulk st ids s).tasks, p.1 ∈ ids → p.2.status = s := by
  intro p hp hid
  unfold updateTasksBulk at hp
  simp only [List.mem_map] at hp
  obtain ⟨q, hq, he⟩ := hp
  by_cases hqid : q.1 ∈ ids
  · rw [if_pos hqid] at he
    rw [← he]
  · rw [if_neg hqid] at he
    rw [← he] at hid
    exact absurd hid hqid

theorem fetchAndParseEmail_success_empty (w : World) (st : PipeState) (m : String) (msg : Msg)
    (sd ed : SDate)
    (hmsg : w.getMsg m = Except.ok msg)
    (hhtml : msg.html ≠ "")
    (hsd : (parseEmailBody msg.dom).startDate ≠ sentinel)
    (hsdp : w.parseDateD (parseEmailBody msg.dom).startDate = some sd)
    (hed : (parseEmailBody msg.dom).endDate ≠ sentinel)
    (hedp : w.parseDateD (parseEmailBody msg.dom).endDate = some ed)
    (hle : ¬ dateLe (firstOfMonth sd) ed) :
    fetchAndParseEmail w st m =
      (updateTask (updateTask st m none (some .fetching) none) m
        (some ((findHeader msg.headers "subject").getD "No Subject")) (some .parsing) none,
       .success ⟨m, (findHeader msg.headers "subject").getD "No Subject",
         parseEmailBody msg.dom, [],
         [ .vstr "UNSET", .vstr (parseEmailBody msg.dom).organization,
           .vstr (parseEmailBody msg.dom).title, .vstr (parseEmailBody msg.dom).description,
           .vstr (parseEmailBody msg.dom).startDate, .vstr (parseEmailBody msg.dom).endDate,
           .vstr (parseEmailBody msg.dom).time, .vstr (parseEmailBody msg.dom).venue,
           .vstr (parseEmailBody msg.dom).type_,
           .vhyperlink (w.buildPdfLink msg.html) (some "PDF LINK"), .vstr "" ],
         findHeader msg.headers "date"⟩) := by
  unfold fetchAndParseEmail
  rw [hmsg]
  simp only
  rw [if_neg hhtml]
  rw [if_neg (show ¬((parseEmailBody msg.dom).organization = ""
      ∨ (parseEmailBody msg.dom).title = "") from by
    rintro (h | h)
    · exact jsOr_sentinel_ne_empty _ h
    · exact jsOr_sentinel_ne_empty _ h)]
  rw [show parseDateNoInference w (parseEmailBody msg.dom).startDate = some sd from by
    unfold parseDateNoInference
    rw [if_neg (by
      rintro (h | h)
      · exact jsOr_sentinel_ne_empty _ h
      · exact hsd h)]
    exact hsdp]
  rw [show parseDateNoInference w (parseEmailBody msg.dom).endDate = some ed from by
    unfold parseDateNoInference
    rw [if_neg (by
      rintro (h | h)
      · exact jsOr_sentinel_ne_empty _ h
      · exact hed h)]
    exact hedp]
  simp only
  rw [getMonthsBetweenDates_empty sd ed hle]
  rfl

/-- C10: a record that fetches and extracts cleanly and whose parsed end
date precedes the first day of the start date's month yields the empty
month-bucket sequence, is still classified `success` (never held or
rejected), and a macro-batch containing only it writes no monthly
bucket — it only appends the record's `Processed` row to the audit log
and marks the task done. -/
theorem claim_C10_end_before_start (w : World) (st : PipeState) (m : String) (msg : Msg)
    (sh : SheetT) (sd ed : SDate)
    (hmsg : w.getMsg m = Except.ok msg)
    (hhtml : msg.html ≠ "")
    (hsd : (parseEmailBody msg.dom).startDate ≠ sentinel)
    (hsdp : w.parseDateD (parseEmailBody msg.dom).startDate = some sd)
    (hed : (parseEmailBody msg.dom).endDate ≠ sentinel)
    (hedp : w.parseDateD (parseEmailBody msg.dom).endDate = some ed)
    (hlt : dateLt ed (firstOfMonth sd))
    (hlog : findSheet st.ss LOG_SHEET_NAME = some sh) :
    getMonthsBetweenDates sd ed = [] ∧
    statusOf (fetchAndParseEmail w st m).2 = "success" ∧
    (runBatch w st [m]).2 = 1 ∧
    findSheet (runBatch w st [m]).1.ss LOG_SHEET_NAME
      = some { sh with rows := sh.rows ++
          [[ .strV ((findHeader msg.headers "date").getD ""), .strV m, .strV "Processed",
             .strV (parseEmailBody msg.dom).organization,
             .strV (parseEmailBody msg.dom).title ]] } ∧
    (∀ n, n ≠ LOG_SHEET_NAME → findSheet (runBatch w st [m]).1.ss n = findSheet st.ss n) ∧
    (∀ p ∈ (runBatch w st [m]).1.tasks, p.1 = m → p.2.status = TStatus.done) := by
  have hle : ¬ dateLe (firstOfMonth sd) ed := dateLt_not_le ed (firstOfMonth sd) hlt
  have hmonths := getMonthsBetweenDates_empty sd ed hle
  have hfetch := fetchAndParseEmail_success_empty w st m msg sd ed hmsg hhtml hsd hsdp hed hedp hle
  have hprov : provisionSheets st.ss [LOG_SHEET_NAME] = st.ss := by
    unfold provisionSheets
    rw [show [LOG_SHEET_NAME].filter (fun n => (findSheet st.ss n).isNone) = [] from by
      simp [hlog]]
    rfl
  have hrun : runBatch w st [m] =
      (updateTasksBulk
        { updateTasksBulk
            (updateTask (updateTask st m none (some .fetching) none) m
              (some ((findHeader msg.headers "subject").getD "No Subject"))
              (some .parsing) none)
            [m] TStatus.building_request with
          ss := appendToSheet (provisionSheets st.ss [LOG_SHEET_NAME]) LOG_SHEET_NAME
            [[ .strV ((findHeader msg.headers "date").getD ""), .strV m, .strV "Processed",
               .strV (parseEmailBody msg.dom).organization,
               .strV (parseEmailBody msg.dom).title ]] }
        [m] TStatus.done,
       1) := by
    unfold runBatch
    rw [show chunks 5 [m] = [[m]] from rfl]
    simp only [List.foldl_cons, List.foldl_nil]
    rw [hfetch]
    rfl
  refine ⟨hmonths, by rw [hfetch]; rfl, by rw [hrun], ?_, ?_, ?_⟩
  · rw [hrun]
    simp only [updateTasksBulk]
    rw [hprov, findSheet_appendToSheet, if_pos rfl, hlog]
    rfl
  · intro n hn
    rw [hrun]
    simp only [updateTasksBulk]
    rw [hprov, findSheet_appendToSheet, if_neg (fun he => hn he.symm)]
  · intro p hp hpm
    rw [hrun] at hp
    exact updateTasksBulk_status _ [m] TStatus.done p hp (by simp [hpm])

/-- Witness for C10 at a concrete end-before-start message (start July
2025, end May 2025). -/
theorem claim_C10_end_before_start_witness :
    (fixW10.getMsg "m" = Except.ok fixMsg10 ∧
      fixMsg10.html ≠ "" ∧
      (parseEmailBody fixMsg10.dom).startDate ≠ sentinel ∧
      fixW10.parseDateD (parseEmailBody fixMsg10.dom).startDate = some ⟨2025, 6, 1⟩ ∧
      (parseEmailBody fixMsg10.dom).endDate ≠ sentinel ∧
      fixW10.parseDateD (parseEmailBody fixMsg10.dom).endDate = some ⟨2025, 4, 1⟩ ∧
      dateLt ⟨2025, 4, 1⟩ (firstOfMonth ⟨2025, 6, 1⟩) ∧
      findSheet fixSt10.ss LOG_SHEET_NAME = some fixLogSheet) ∧
    getMonthsBetweenDates ⟨2025, 6, 1⟩ ⟨2025, 4, 1⟩ = [] ∧
    statusOf (fetchAndParseEmail fixW10 fixSt10 "m").2 = "success" ∧
    (runBatch fixW10 fixSt10 ["m"]).2 = 1 ∧
    (∀ n, n ≠ LOG_SHEET_NAME →
      findSheet (runBatch fixW10 fixSt10 ["m"]).1.ss n = findSheet fixSt10.ss n) ∧
    (∀ p ∈ (runBatch fixW10 fixSt10 ["m"]).1.tasks, p.1 = "m" → p.2.status = TStatus.done) := by
  have h := claim_C10_end_before_start fixW10 fixSt10 "m" fixMsg10 fixLogSheet
    ⟨2025, 6, 1⟩ ⟨2025, 4, 1⟩ rfl (by decide) (by decide) (by decide) (by decide) (by decide)
    (by decide) rfl
  exact ⟨⟨rfl, by decide, by decide, by decide, by decide, by decide, by decide, rfl⟩,
    h.1, h.2.1, h.2.2.1, h.2.2.2.2.1, h.2.2.2.2.2⟩

end POA